import Mathlib

/-
Shallow embedding of the sqlserver-schema-manager reconciliation core
(src/sssm/align.py, src/sssm/db_entities/declared.py,
src/sssm/db_entities/reflected.py, src/sssm/db_entities/attributes.py),
with theorems checking the natural-language specification against it.

Conventions used throughout:
* Python exceptions are modelled with `Except Err`; the exception class
  hierarchy of src/sssm/exceptions.py is flat except where noted, and the
  embedding only distinguishes the classes the code catches.
* Machine-visible side effects (DDL statements and commits executed through
  a cursor) are modelled as an emitted trace of `Event`s; read-only SQL
  queries are modelled as pure reads of the live state.
* Python truthiness is made explicit at each use site (None and the empty
  string are falsy).
-/

namespace SSSM

/-- Entity type identifiers: the `object_type` strings used by the code
(attributes.py, declared.py, reflected.py). -/
inductive EType where
  | servers
  | databases
  | schemas
  | tables
  | columns
  | primary_keys
  | indexes
  | foreign_keys
  | partitions
  | logins
  | users
deriving DecidableEq, Repr

/-- Exception classes of src/sssm/exceptions.py (plus the Python builtins
the code can raise).  Only the classes that some `except` clause
distinguishes need to be distinct constructors. -/
inductive Err where
  | dbError
  | dbObjectDoesntExist
  | dbNotAltered
  | invalidChild
  | valueError
  | keyError
  | attributeError
  | typeError
  | indexError
  | assertionError
  | notImplemented
  | pyException
  | fuelExhausted
deriving DecidableEq, Repr

/-- Attribute values.  Declared attribute values come from the Python
constructors (strings, bools, ints, tuples of lowercased column names,
sets of lowercased included-column names, None); reflected values are
derived from detail-query rows. -/
inductive Val where
  | none
  | str (s : String)
  | bool (b : Bool)
  | nat (n : Nat)
  | strs (l : List String)
  | strset (l : List String)
deriving DecidableEq, Repr

/-- Python `==` on the attribute values that occur in this program:
scalars and tuples compare structurally, sets compare extensionally
(`strset` models a Python set, so order and multiplicity are ignored). -/
def Val.eq : Val → Val → Bool
  | .none, .none => true
  | .str a, .str b => a == b
  | .bool a, .bool b => a == b
  | .nat a, .nat b => a == b
  | .strs a, .strs b => a == b
  | .strset a, .strset b => a.all (fun x => b.contains x) && b.all (fun x => a.contains x)
  | _, _ => false

/-- Python str.lower() as the code applies it to SQL identifiers
(ASCII): lowercase every character.  (Defined here because the embedding
needs a lowercase map the kernel can evaluate.) -/
def pyLower (s : String) : String :=
  String.mk (s.data.map Char.toLower)

/-- Value extractors for the shapes the code stores (declared constructors
and detail rows only ever put these shapes under these keys). -/
def valStrOf : Val → String
  | .str s => s
  | _ => ""

def valBoolOf : Val → Bool
  | .bool b => b
  | _ => false

def valStrsOf : Val → List String
  | .strs l => l
  | _ => []

def valSetOf : Val → List String
  | .strset l => l
  | _ => []

def valONatOf : Val → Option Nat
  | .nat n => some n
  | _ => Option.none

def optNatVal : Option Nat → Val
  | some n => .nat n
  | Option.none => .none

/-- The `ignore_extra_children` argument of DeclaredEntity.__init__
(declared.py line 13): None, a bool, or a collection of child-type names
(stored as a set). -/
inductive Ignore where
  | noneI
  | boolI (b : Bool)
  | setI (ts : List EType)
deriving DecidableEq, Repr

/-- attributes.py `valid_attributes`: the ordered attribute-name tuple per
entity type. -/
def validAttributes : EType → List String
  | .logins => ["type_desc", "server_roles", "password"]
  | .databases => ["recovery_model_desc", "data_size", "log_size", "owner", "data_file_path", "log_file_path"]
  | .columns => ["data_type", "char_max_len", "datetime_precision", "numeric_precision", "numeric_scale", "nullable", "identity"]
  | .foreign_keys => ["foreign_schema", "foreign_table", "foreign_column", "column"]
  | .primary_keys => ["columns", "clustered", "compression"]
  | .indexes => ["columns", "clustered", "compression", "included_columns", "unique"]
  | .users => ["login_name", "db_roles"]
  | .partitions => ["column"]
  | .tables => []
  | .schemas => []
  | .servers => []

/-- The `child_types` class attribute of the Declared classes
(declared.py), as object types, in declaration order.  align_entity
iterates this order (align.py line 39). -/
def childTypesD : EType → List EType
  | .servers => [.logins, .databases]
  | .databases => [.schemas, .users]
  | .schemas => [.tables]
  | .tables => [.columns, .primary_keys, .indexes, .partitions]
  | _ => []

/-- The `can_create` class attribute (reflected.py line 21, overridden to
False for logins at line 1384). -/
def canCreateT : EType → Bool
  | .logins => false
  | _ => true

/-- The `can_delete` method (reflected.py lines 341-343; ReflectedDatabase
overrides it to False at lines 1366-1368; ReflectedLogin restates True). -/
def canDeleteT : EType → Bool
  | .databases => false
  | _ => true

/-- The `system_names` class attribute of the Reflected classes: live
children with these names are skipped by all_for_parent. -/
def sysNamesT : EType → List String
  | .schemas => ["sys", "guest", "INFORMATION_SCHEMA"]
  | .users => ["dbo", "guest", "sys", "INFORMATION_SCHEMA"]
  | .databases => ["master", "tempdb", "model", "msdb", "ReportServer", "ReportServerTempDB"]
  | .logins => ["##MS_PolicyTsqlExecutionLogin##", "GCT", "##MS_PolicyEventProcessingLogin##", "sa"]
  | _ => []

/-- A Declared Node (declared.py DeclaredEntity).  Children are kept in a
single insertion-ordered list; each child carries its own object type, so
the per-type lists of the Python `children` dict are recovered by
filtering (the dict only ever holds a key when at least one child of that
type was added, see add_child lines 64-68). -/
inductive DNode where
  | mk : EType → String → Option String → Ignore → List DNode → List (String × Val) → DNode

def DNode.otype : DNode → EType
  | .mk t _ _ _ _ _ => t

def DNode.name : DNode → String
  | .mk _ n _ _ _ _ => n

def DNode.oldName : DNode → Option String
  | .mk _ _ o _ _ _ => o

def DNode.ignore : DNode → Ignore
  | .mk _ _ _ i _ _ => i

def DNode.children : DNode → List DNode
  | .mk _ _ _ _ cs _ => cs

def DNode.attrs : DNode → List (String × Val)
  | .mk _ _ _ _ _ a => a

/-- Replace the name of a declared node (models the in-place assignment
`declared_object.name = ps_name`, reflected.py line 936). -/
def DNode.setName : DNode → String → DNode
  | .mk t _ o i cs a, n => .mk t n o i cs a

/-- getattr on a declared node for a registry attribute (the values are
set by __init__ at declared.py line 42; well-formed nodes always carry
every registry attribute, so the default is never reached on them). -/
def dAttr (d : DNode) (a : String) : Val :=
  match d.attrs.lookup a with
  | some v => v
  | Option.none => Val.none

/-- DeclaredEntity.ignore_extra_children_type (declared.py lines 47-56):
membership test for a set, Python truthiness otherwise. -/
def ignoreExtraChildrenType (d : DNode) (t : EType) : Bool :=
  match d.ignore with
  | .setI ts => ts.contains t
  | .boolI b => b
  | .noneI => false

/-- DeclaredEntity.get_children (declared.py lines 71-72):
`self.children.get(child_type, None)`.  A key is present in the Python
dict exactly when at least one child of that type was added. -/
def dGetChildren (d : DNode) (t : EType) : Option (List DNode) :=
  match d.children.filter (fun c => c.otype == t) with
  | [] => Option.none
  | cs => some cs

/-- DeclaredEntity.get_child (declared.py lines 74-79).  When no children
of the type exist, get_children returns None and the Python `for` loop
over None raises TypeError; when the loop finds nothing, the for-else
raises InvalidDBEntityChildError.  First match wins. -/
def dGetChild (d : DNode) (t : EType) (n : String) : Except Err DNode :=
  match dGetChildren d t with
  | Option.none => .error .typeError
  | some cs =>
    match cs.find? (fun c => c.name == n) with
    | some c => .ok c
    | Option.none => .error .invalidChild

/-- DeclaredEntity.get_child_by_name (declared.py lines 96-104).  The loop
iterates `self.child_objects`, but neither DeclaredEntity nor any of its
subclasses defines an attribute or class attribute named `child_objects`
(the reflected twin at reflected.py line 162 iterates `self.child_types`),
so evaluating the iterable raises AttributeError before any lookup is
attempted.  (Even under the intended `child_types` reading, get_child
raises InvalidDBEntityChildError / TypeError, neither of which the
`except DBObjectDoesntExistError` clause at line 101 catches.) -/
def dGetChildByName (_d : DNode) (_n : String) : Except Err DNode :=
  .error .attributeError

/-- DeclaredEntity.get_object_by_id (declared.py lines 81-94), on a
non-empty chain of names (an empty chain would raise IndexError at
`object_names[0]`). -/
def dGetObjectById (d : DNode) : List String → Except Err DNode
  | [] => .error .indexError
  | n :: rest =>
    match dGetChildByName d n with
    | .error e => .error e
    | .ok c => if rest.isEmpty then .ok c else dGetObjectById c rest

/-- DeclaredEntity.add_child (declared.py lines 58-69): the child's type
must be one of the parent's declared child types; the child is appended to
its type's list (appending to the flat list preserves per-type order). -/
def dAddChild (d : DNode) (c : DNode) : Except Err DNode :=
  if (childTypesD d.otype).contains c.otype then
    .ok (DNode.mk d.otype d.name d.oldName d.ignore (d.children ++ [c]) d.attrs)
  else
    .error .invalidChild

/-- Python `name[:128]`: the first 128 characters of the string. -/
def strTake128 (s : String) : String :=
  String.mk (s.data.take 128)

/-- The child-adding loop of __init__ (declared.py lines 30-38). -/
def addChildrenFold : DNode → List DNode → Except Err DNode
  | b, [] => .ok b
  | b, c :: cs =>
    match dAddChild b c with
    | .error e => .error e
    | .ok b1 => addChildrenFold b1 cs

/-- Helper for initDeclared: collect the value of every registry attribute
from the keyword arguments (`kwargs.pop(attr_name)` at declared.py line
42; a missing key raises KeyError). -/
def popAttrs (kw : List (String × Val)) : List String → Except Err (List (String × Val))
  | [] => .ok []
  | a :: rest =>
    match kw.lookup a with
    | Option.none => .error .keyError
    | some v =>
      match popAttrs kw rest with
      | .error e => .error e
      | .ok tl => .ok ((a, v) :: tl)

/-- DeclaredEntity.__init__ (declared.py lines 13-45): a None name raises
DBError (line 23); the stored name is the supplied name truncated to 128
characters (line 24); children are added through add_child; every registry
attribute must be supplied, and supplying attribute names outside the
registry raises ValueError (lines 40-45). -/
def initDeclaredNamed (t : EType) (s : String) (oldName : Option String)
    (ig : Ignore) (childArgs : List DNode) (kw : List (String × Val)) :
    Except Err DNode :=
  match addChildrenFold (DNode.mk t (strTake128 s) oldName ig [] []) childArgs with
  | .error e => .error e
  | .ok base =>
    match popAttrs kw (validAttributes t) with
    | .error e => .error e
    | .ok collected =>
      if kw.any (fun p => !(validAttributes t).contains p.1) then
        .error .valueError
      else
        .ok (DNode.mk base.otype base.name base.oldName base.ignore
          base.children collected)

def initDeclared (t : EType) (name : Option String) (oldName : Option String)
    (ig : Ignore) (childArgs : List DNode) (kw : List (String × Val)) :
    Except Err DNode :=
  match name with
  | Option.none => .error .dbError
  | some s => initDeclaredNamed t s oldName ig childArgs kw

/-! ## Cross-tree equality (reflected.py lines 395-409 and the per-type
`equate_declared` overrides; declared.py lines 106-111)

The reflected side of the comparison is represented by its object type,
its in-memory name, and a valuation giving the (lazily fetched) live
attribute values; this is all `__eq__`/`equate_declared` ever reads. -/

/-- ReflectedEntity.equate_declared (reflected.py lines 401-409): default
case-insensitive comparison of the reflected name against the declared
name, or against the declared old_name when that is truthy (a None or
empty old_name short-circuits the second disjunct). -/
def equateDefault (rname : String) (d : DNode) : Bool :=
  (pyLower rname) == (pyLower d.name) ||
    (match d.oldName with
     | some o => o != "" && (pyLower rname) == (pyLower o)
     | Option.none => false)

/-- The per-type equate_declared dispatch: ReflectedPrimaryKey (lines
550-557) compares the column tuples; ReflectedIndex (lines 658-664) also
compares the included-column sets; ReflectedPartition (lines 956-962)
compares the partitioned column; ReflectedUser (lines 1220-1226) compares
the associated login name; every other type uses the base rule. -/
def equateDeclared (t : EType) (rname : String) (rattr : String → Val) (d : DNode) : Bool :=
  match t with
  | .primary_keys => Val.eq (rattr "columns") (dAttr d "columns")
  | .indexes => Val.eq (rattr "columns") (dAttr d "columns") &&
      Val.eq (rattr "included_columns") (dAttr d "included_columns")
  | .partitions => Val.eq (rattr "column") (dAttr d "column")
  | .users => Val.eq (rattr "login_name") (dAttr d "login_name")
  | _ => equateDefault rname d

/-- ReflectedEntity.__eq__ against a DeclaredEntity (reflected.py lines
395-399): the object types must agree (every concrete class has a truthy
object_type string), then the type-specific equate_declared decides. -/
def reflectedEq (t : EType) (rname : String) (rattr : String → Val) (d : DNode) : Bool :=
  t == d.otype && equateDeclared t rname rattr d

/-- DeclaredEntity.__eq__ against a ReflectedEntity (declared.py lines
106-111): delegate to the ReflectedEntity __eq__ logic. -/
def declaredEqReflected (d : DNode) (t : EType) (rname : String) (rattr : String → Val) : Bool :=
  reflectedEq t rname rattr d

/-! ## Effects: executed statements, commits, confirmation prompts

Mutating statements executed through the cursor, and commits, are recorded
in an event trace.  The interactive `input(... (y/n))` prompts
(reflected.py lines 247, 309, 329) are answered by an oracle function
consulted in prompt order. -/

/-- The mutating SQL statements the embedded code can execute, abstracted
to the statement kind and the identifiers that drive the claims (the full
statement text is dialect detail the engine never inspects, spec section 6). -/
inductive Stmt where
  | addColumn (col : String)
  | alterColumn (col : String)
  | dropColumn (col : String)
  | dropIndex (idx : String)
  | dropConstraint (nm : String)
  | createIndexS (nm : String)
  | createPkS (nm : String)
  | alterIndexS (nm : String)
  | renameS (t : EType) (oldName newName : String)
  | createPartitionFn (pf : String)
  | createPartitionScheme (ps : String)
  | dropPartitionScheme (ps : String)
  | dropPartitionFn (pf : String)
  | createLoginS (nm : String)
  | deleteLoginS (nm : String)
  | alterRoleS (role : String) (login : String)
deriving DecidableEq, Repr

/-- One observable side effect: a statement execution or a commit. -/
inductive Event where
  | exec (s : Stmt)
  | commit
deriving DecidableEq, Repr

/-- Threaded run state: the live database state, the confirmation oracle
(answer to the n-th y/n prompt), and the number of prompts asked so far. -/
structure St (σ : Type) where
  live : σ
  confirms : Nat → Bool
  nAsked : Nat

/-- The effect monad: state, an emitted event trace, and Python
exceptions. -/
def M (σ α : Type) : Type :=
  St σ → Except Err α × St σ × List Event

def mPure (a : α) : M σ α :=
  fun s => (.ok a, s, [])

def mBind (m : M σ α) (f : α → M σ β) : M σ β :=
  fun s =>
    match m s with
    | (.ok a, s1, ev) =>
      match f a s1 with
      | (r, s2, ev2) => (r, s2, ev ++ ev2)
    | (.error e, s1, ev) => (.error e, s1, ev)

instance : Monad (M σ) where
  pure := mPure
  bind := mBind

/-- raise an exception. -/
def mThrow (e : Err) : M σ α :=
  fun s => (.error e, s, [])

/-- Python try/except: effects performed before the exception persist. -/
def mAttempt (m : M σ α) : M σ (Except Err α) :=
  fun s =>
    match m s with
    | (.ok a, s1, ev) => (.ok (.ok a), s1, ev)
    | (.error e, s1, ev) => (.ok (.error e), s1, ev)

/-- record a statement execution. -/
def emitStmt (st : Stmt) : M σ Unit :=
  fun s => (.ok (), s, [Event.exec st])

/-- cur.commit(). -/
def commitM : M σ Unit :=
  fun s => (.ok (), s, [Event.commit])

/-- read the live state (a SELECT query; no event emitted). -/
def getLiveM : M σ σ :=
  fun s => (.ok s.live, s, [])

/-- overwrite the live state (the effect of an executed statement). -/
def setLiveM (l : σ) : M σ Unit :=
  fun s => (.ok (), { s with live := l }, [])

/-- `input('Are you sure ...? (y/n)') == 'y'`: consult the confirmation
oracle at the current prompt index. -/
def askConfirm : M σ Bool :=
  fun s => (.ok (s.confirms s.nAsked), { s with nAsked := s.nAsked + 1 }, [])

/-! ## Reflected nodes and the per-type operation interface

A ReflectedEntity instance is its object type, its in-memory name, the
chain of ancestor (type, name) pairs standing for the `parent` pointer,
and the `_attributes` cache.  The Python two-level cache (`_detail_result`
plus `_attributes`) is collapsed to the per-attribute cache: detail
fetches are read-only queries, so the collapse is observationally
equivalent for the event trace and the returned values. -/

structure RNode where
  otype : EType
  name : String
  path : List (EType × String)
  cache : List (String × Val)
deriving Repr

/-- The constructor call `cls(parent, name)` for a child class
(reflected.py lines 23-39): fresh node, empty attribute cache. -/
def mkChildNode (parent : RNode) (t : EType) (n : String) : RNode :=
  { otype := t, name := n, path := parent.path ++ [(parent.otype, parent.name)], cache := [] }

/-- `self.parent` recovered from the ancestry chain (never consulted at
the root in the embedded runs). -/
def parentNode (n : RNode) : RNode :=
  match n.path.getLast? with
  | some (t, nm) => { otype := t, name := nm, path := n.path.dropLast, cache := [] }
  | Option.none => n

/-- reset_attribute (reflected.py lines 216-223): drop one cached value so
the next read re-fetches. -/
def resetAttribute (n : RNode) (a : String) : RNode :=
  { n with cache := n.cache.filter (fun p => p.1 != a) }

/-- reset_all_attributes (reflected.py lines 225-231). -/
def resetAllAttributes (n : RNode) : RNode :=
  { n with cache := [] }

/-- The abstract per-type operations of ReflectedEntity that concrete
subclasses supply (reflected.py): the Lean counterpart of the dynamic
method dispatch.  Fields map one-to-one onto the methods named in the
doc strings below. -/
structure Ops (σ : Type) where
  /-- classmethod `_list_names_ex(parent)` of the child class. -/
  listNames : RNode → EType → M σ (List String)
  /-- classmethod `_name_exists_ex(parent, name)` of the child class. -/
  nameExists : RNode → EType → String → M σ Bool
  /-- classmethod `from_declared`: `some` for the types that override the
  default (primary keys, indexes, partitions, users), `none` for the
  default redirect to by_name (reflected.py lines 89-95). -/
  fromDeclaredOverride : EType → Option (RNode → DNode → M σ RNode)
  /-- classmethod `_create_ex(parent, declared_object)`; returns the
  declared object because ReflectedPartition._create_ex assigns to its
  name (reflected.py line 936); every other override returns it
  unchanged. -/
  createEx : RNode → EType → DNode → M σ DNode
  /-- `_delete_ex(self)`. -/
  deleteEx : RNode → M σ Unit
  /-- `_rename_ex(self, new_name)`; returns the node because the
  index/primary-key override assigns `self.name` (reflected.py line
  458). -/
  renameEx : RNode → String → M σ RNode
  /-- `get_details` followed by `read_attribute` (reflected.py lines
  196-214, 352-363): fetch the detail row and derive one attribute value,
  dispatching to `get_attr_<name>` when defined. -/
  readAttrFresh : RNode → String → M σ Val
  /-- the `set_attr_<attribute_name>` method lookup of set_attribute
  (reflected.py line 240): `none` when the type defines no setter for the
  attribute. -/
  setAttrMethod : EType → String → Option (RNode → DNode → M σ RNode)
  /-- `__eq__` against a declared node, as a pure function of the live
  state (the attribute reads it performs are read-only queries). -/
  reflEq : σ → RNode → DNode → Bool

/-! ## Generic base-class behaviour (reflected.py ReflectedEntity) -/

/-- all_for_parent (reflected.py lines 84-87): list the names, skip the
system-reserved ones, construct a node for each. -/
def allForParent (ops : Ops σ) (parent : RNode) (t : EType) : M σ (List RNode) := do
  let names ← ops.listNames parent t
  pure ((names.filter (fun n => !(sysNamesT t).contains n)).map (mkChildNode parent t))

/-- by_name (reflected.py lines 97-106): a truthy name that exists under
the parent yields a fresh node, anything else raises
DBObjectDoesntExistError (`if name and cls._name_exists_ex(...)`; a falsy
name short-circuits without querying). -/
def byName (ops : Ops σ) (parent : RNode) (t : EType) (n : String) : M σ RNode := do
  if n != "" then
    let ex ← ops.nameExists parent t n
    if ex then
      pure (mkChildNode parent t n)
    else
      mThrow .dbObjectDoesntExist
  else
    mThrow .dbObjectDoesntExist

/-- from_declared (reflected.py lines 89-95): per-type override when
present, otherwise the default redirect to by_name on the declared
name. -/
def fromDeclared (ops : Ops σ) (parent : RNode) (t : EType) (d : DNode) : M σ RNode :=
  match ops.fromDeclaredOverride t with
  | some f => f parent d
  | Option.none => byName ops parent t d.name

/-- __getattr__ for a registry attribute (reflected.py lines 41-57): an
unknown name raises AttributeError; a cached value is returned as is;
otherwise the value is fetched fresh and cached. -/
def getattrA (ops : Ops σ) (n : RNode) (a : String) : M σ (Val × RNode) := do
  if !(validAttributes n.otype).contains a then
    mThrow .attributeError
  else
    match n.cache.lookup a with
    | some v => pure (v, n)
    | Option.none => do
      let v ← ops.readAttrFresh n a
      pure (v, { n with cache := (a, v) :: n.cache })

/-- set_attribute (reflected.py lines 233-260).  No registered
`set_attr_<name>` method: log and report False (lines 240-244).
Otherwise: read the declared value, ask for confirmation; on approval run
the setter, commit, invalidate the cached attribute, re-read it and raise
DBNotAlteredAttributeError when the re-read value differs from the
declared one; on refusal report False. -/
def setAttribute (ops : Ops σ) (n : RNode) (d : DNode) (a : String) : M σ (Bool × RNode) :=
  match ops.setAttrMethod n.otype a with
  | Option.none => mPure (false, n)
  | some method => do
    let newVal := dAttr d a
    let c ← askConfirm
    if c then do
      let n1 ← method n d
      commitM
      let n2 := resetAttribute n1 a
      let (v, n3) ← getattrA ops n2 a
      if !(Val.eq v newVal) then
        mThrow .dbNotAltered
      else
        pure (true, n3)
    else
      pure (false, n)

/-- delete (reflected.py lines 326-339).  When the per-type policy allows
deletion and the prompt is approved, `_delete_ex` runs and the cursor
commits, after which the method falls off its end: the Python function
returns None (not True) on the successful path, and False on either
refusal.  `Option.none` models the Python None. -/
def deleteEntity (ops : Ops σ) (n : RNode) : M σ (Option Bool) := do
  if canDeleteT n.otype then
    let c ← askConfirm
    if c then do
      ops.deleteEx n
      commitM
      pure Option.none
    else
      pure (some false)
  else
    pure (some false)

/-- Python truthiness of the value delete() returns. -/
def truthyOB : Option Bool → Bool
  | Option.none => false
  | some b => b

/-- rename (reflected.py lines 303-316): confirmation gate; on approval
run `_rename_ex`, commit, verify the new name resolves, raising DBError
otherwise, and only then update the in-memory name.  On refusal the method
is a no-op. -/
def renameEntity (ops : Ops σ) (n : RNode) (newName : String) : M σ RNode := do
  let c ← askConfirm
  if c then do
    let n1 ← ops.renameEx n newName
    commitM
    let ex ← ops.nameExists (parentNode n) n.otype newName
    if !ex then
      mThrow .dbError
    else
      pure { n1 with name := newName }
  else
    pure n

/-- classmethod create (reflected.py lines 265-273): run `_create_ex`,
commit, then verify the declared name now exists, raising DBError
otherwise.  The declared object is threaded through because
`_create_ex` may assign to it. -/
def createEntity (ops : Ops σ) (parent : RNode) (t : EType) (d : DNode) : M σ DNode := do
  let d1 ← ops.createEx parent t d
  commitM
  let ex ← ops.nameExists parent t d1.name
  if !ex then
    mThrow .dbError
  else
    pure d1

/-- get_or_create (reflected.py lines 108-122): attempt from_declared;
only DBObjectDoesntExistError is caught; when the type supports creation,
create (with verification) and re-match, any failure of the re-match
propagating; when it does not, log and return no counterpart. -/
def getOrCreate (ops : Ops σ) (parent : RNode) (t : EType) (d : DNode) :
    M σ (Option RNode × DNode) := do
  let r ← mAttempt (fromDeclared ops parent t d)
  match r with
  | .ok node => pure (some node, d)
  | .error e =>
    if e == .dbObjectDoesntExist then
      if canCreateT t then do
        let d1 ← createEntity ops parent t d
        let node ← fromDeclared ops parent t d1
        pure (some node, d1)
      else
        pure (Option.none, d)
    else
      mThrow e

/-! ## The alignment engine (align.py)

align_entity / align_child_type are embedded with their loops as named
top-level functions, one per block of the Python source, and a fuel
argument bounding the recursion depth into declared children (the Python
recursion is bounded by the height of the declared tree; running out of
fuel raises, which no claim's run reaches). -/

/-- The attribute-convergence loop of align_entity (align.py lines
31-36): for each registry attribute, read both sides, and on inequality
call set_attribute, whose boolean result is discarded (its exceptions
propagate). -/
def attrLoop (ops : Ops σ) (d : DNode) : RNode → List String → M σ RNode
  | r, [] => mPure r
  | r, a :: rest => do
    let (rv, r1) ← getattrA ops r a
    if !(Val.eq (dAttr d a) rv) then do
      let (_applied, r2) ← setAttribute ops r1 d a
      attrLoop ops d r2 rest
    else
      attrLoop ops d r1 rest

/-- Attribute convergence for one node pair: the loop over
`attributes.valid_attributes[declared_obj.object_type]`. -/
def attrPhase (ops : Ops σ) (d : DNode) (r : RNode) : M σ RNode :=
  attrLoop ops d r (validAttributes d.otype)

/-- The removal loop of align_child_type (align.py lines 57-66): each
existing live child that equals no declared child is deleted; delete's
result is discarded, so refusals do not abort the run. -/
def sweepLoop (ops : Ops σ) (dcs : List DNode) : List RNode → M σ Unit
  | [] => mPure ()
  | ec :: rest => do
    let lv ← getLiveM
    if dcs.any (fun dch => ops.reflEq lv ec dch) then
      sweepLoop ops dcs rest
    else do
      let _deleted ← deleteEntity ops ec
      sweepLoop ops dcs rest

/-- The whole undeclared-children removal step (align.py lines 55-66):
enumerate the live children of the type and sweep them. -/
def sweepPhase (ops : Ops σ) (rParent : RNode) (t : EType) (dcs : List DNode) : M σ Unit := do
  let ecs ← allForParent ops rParent t
  sweepLoop ops dcs ecs

/-- The rename step for one declared child (align.py lines 70-76): when
old_name is truthy, look up a live child under the old name and rename it
to the declared name; only DBObjectDoesntExistError is swallowed. -/
def renameOldStep (ops : Ops σ) (rParent : RNode) (t : EType) (dc : DNode) : M σ Unit :=
  match dc.oldName with
  | some oldN =>
    if oldN != "" then do
      let r ← mAttempt (do
        let oldChild ← byName ops rParent t oldN
        let _renamed ← renameEntity ops oldChild dc.name
        pure ())
      match r with
      | .ok _ => mPure ()
      | .error e => if e == .dbObjectDoesntExist then mPure () else mThrow e
    else
      mPure ()
  | Option.none => mPure ()

/-- Processing of one declared child (align.py lines 69-81): rename step,
then get_or_create, then, when a counterpart resulted, the recursive
alignment (`alignRec` is the recursive align_entity call).  The returned
declared child carries any mutation creation applied to it. -/
def processChildOne (ops : Ops σ) (alignRec : DNode → RNode → M σ (DNode × RNode))
    (rParent : RNode) (t : EType) (dc : DNode) : M σ DNode := do
  renameOldStep ops rParent t dc
  let (rOpt, dc1) ← getOrCreate ops rParent t dc
  match rOpt with
  | some robj => do
    let (dc2, _rAligned) ← alignRec dc1 robj
    pure dc2
  | Option.none => pure dc1

/-- The declared-children loop of align_child_type (align.py lines
69-81), in declaration order. -/
def processLoop (ops : Ops σ) (alignRec : DNode → RNode → M σ (DNode × RNode))
    (rParent : RNode) (t : EType) : List DNode → M σ (List DNode)
  | [] => mPure []
  | dc :: rest => do
    let dc2 ← processChildOne ops alignRec rParent t dc
    let rest2 ← processLoop ops alignRec rParent t rest
    pure (dc2 :: rest2)

/-- Write back the processed declared children of one type, in place of
the originals (the Python loop mutates the list elements through the
shared references; the list itself and all other children keep their
positions). -/
def replaceTyped (t : EType) : List DNode → List DNode → List DNode
  | _, [] => []
  | news, c :: cs =>
    if c.otype == t then
      match news with
      | nw :: ns => nw :: replaceTyped t ns cs
      | [] => c :: replaceTyped t [] cs
    else
      c :: replaceTyped t news cs

def dSetChildren (d : DNode) (t : EType) (news : List DNode) : DNode :=
  DNode.mk d.otype d.name d.oldName d.ignore (replaceTyped t news d.children) d.attrs

/-- align_child_type (align.py lines 43-81): nothing happens when the
declared parent declares no children of the type; otherwise the removal
step runs unless the type is in the ignore-extra-children set, and then
every declared child is processed in declaration order. -/
def alignChildType (ops : Ops σ) (alignRec : DNode → RNode → M σ (DNode × RNode))
    (dParent : DNode) (rParent : RNode) (t : EType) : M σ DNode :=
  match dGetChildren dParent t with
  | Option.none => mPure dParent
  | some dcs => do
    if !(ignoreExtraChildrenType dParent t) then
      sweepPhase ops rParent t dcs
    else
      pure ()
    let dcs2 ← processLoop ops alignRec rParent t dcs
    pure (dSetChildren dParent t dcs2)

/-- The loop over the declared node's child types (align.py lines
38-40). -/
def childTypeLoop (ops : Ops σ) (alignRec : DNode → RNode → M σ (DNode × RNode))
    (rParent : RNode) : DNode → List EType → M σ DNode
  | d, [] => mPure d
  | d, tt :: ts => do
    let d1 ← alignChildType ops alignRec d rParent tt
    childTypeLoop ops alignRec rParent d1 ts

/-- Child convergence for one node pair: the loop over
`declared_obj.child_types`. -/
def childPhase (ops : Ops σ) (alignRec : DNode → RNode → M σ (DNode × RNode))
    (d : DNode) (r : RNode) : M σ DNode :=
  childTypeLoop ops alignRec r d (childTypesD d.otype)

/-- align_entity (align.py lines 19-41): assert the types match, converge
the attributes, then (when requested) converge the children type by
type. -/
def alignEntity (ops : Ops σ) : Nat → DNode → RNode → Bool → M σ (DNode × RNode)
  | 0, _, _, _ => mThrow .fuelExhausted
  | Nat.succ fuel, d, r, recurseChildren => do
    if d.otype != r.otype then
      mThrow .assertionError
    else do
      let r1 ← attrPhase ops d r
      if recurseChildren then do
        let d1 ← childPhase ops (fun dc rc => alignEntity ops fuel dc rc true) d r1
        pure (d1, r1)
      else
        pure (d, r1)

/-! ## Concrete instantiation: one live table and its children

The live state for the runs the claims need is the subtree rooted at a
table: its columns, its primary key, its indexes (sys.indexes excluding
the primary key, matching TABLE_INDEX_NAMES), and the partition schemes
applied to it.  Read queries are pure functions of this state; executed
statements transform it. -/

/-- A row of the column detail query (sql.py column_detail). -/
structure LiveColumn where
  name : String
  data_type : String
  nullable : Bool
  identity : Bool
  char_max_len : Option Nat
  datetime_precision : Option Nat
  numeric_precision : Option Nat
  numeric_scale : Option Nat
deriving DecidableEq, Repr

/-- A live index: the named_index_details row together with its key and
included column lists (key columns are the non-partition index columns the
get_attr_columns query returns, already lowercase in the catalog
queries' output as the code uses them). -/
structure LiveIndex where
  name : String
  keyColumns : List String
  includedColumns : List String
  clustered : Bool
  unique : Bool
  compression : String
  isUniqueConstraint : Bool
deriving DecidableEq, Repr

/-- The live primary key of the table, when one exists. -/
structure LivePK where
  name : String
  keyColumns : List String
  clustered : Bool
  compression : String
deriving DecidableEq, Repr

/-- A partition scheme applied to the table, with the column it partitions
by. -/
structure LiveScheme where
  psName : String
  column : String
deriving DecidableEq, Repr

structure LiveTable where
  schemaName : String
  tableName : String
  columns : List LiveColumn
  pk : Option LivePK
  indexes : List LiveIndex
  partitions : List LiveScheme
deriving DecidableEq, Repr

/-- Name lookups.  SQL Server's default collation compares identifiers
case-insensitively, which the code relies on (it lowercases listed column
names but keeps declared names as supplied). -/
def findColumn (lv : LiveTable) (n : String) : Option LiveColumn :=
  lv.columns.find? (fun c => (pyLower c.name) == (pyLower n))

def findIndex (lv : LiveTable) (n : String) : Option LiveIndex :=
  lv.indexes.find? (fun i => (pyLower i.name) == (pyLower n))

def findScheme (lv : LiveTable) (n : String) : Option LiveScheme :=
  lv.partitions.find? (fun ps => (pyLower ps.psName) == (pyLower n))

/-- The data-type category sets of util.py that drive the per-attribute
derivation rules of ReflectedColumn. -/
def NUMERIC_TYPES : List String := ["decimal", "numeric"]

def APPROX_NUMBER_TYPES : List String := ["float", "real"]

def DATETIME_PRECISION_TYPES : List String := ["time", "datetime2", "datetimeoffset"]

def CHAR_TYPES : List String := ["char", "varchar", "nchar", "nvarchar", "binary", "varbinary"]

/-- ReflectedColumn attribute derivation (reflected.py lines 753-783;
data_type is taken directly from the detail row by read_attribute's
fallback): precision-style attributes are None unless the data type's
category carries them. -/
def columnAttrVal (c : LiveColumn) (a : String) : Except Err Val :=
  if a == "data_type" then .ok (.str c.data_type)
  else if a == "nullable" then .ok (.bool c.nullable)
  else if a == "identity" then .ok (.bool c.identity)
  else if a == "numeric_precision" then
    .ok (if NUMERIC_TYPES.contains c.data_type || APPROX_NUMBER_TYPES.contains c.data_type then
      optNatVal c.numeric_precision else .none)
  else if a == "numeric_scale" then
    .ok (if NUMERIC_TYPES.contains c.data_type then optNatVal c.numeric_scale else .none)
  else if a == "datetime_precision" then
    .ok (if DATETIME_PRECISION_TYPES.contains c.data_type then optNatVal c.datetime_precision else .none)
  else if a == "char_max_len" then
    .ok (if CHAR_TYPES.contains c.data_type then optNatVal c.char_max_len else .none)
  else .error .attributeError

/-- ReflectedIndex attribute derivation: columns via get_attr_columns
(lowercased key columns, reflected.py lines 493-512), included columns via
get_attr_included_columns with `included_columns or None` (lines 648-653),
clustered via type_desc (lines 514-515), compression and unique directly
from the detail row. -/
def indexAttrVal (i : LiveIndex) (a : String) : Except Err Val :=
  if a == "columns" then .ok (.strs (i.keyColumns.map pyLower))
  else if a == "included_columns" then
    .ok (if i.includedColumns.isEmpty then .none else .strset (i.includedColumns.map pyLower))
  else if a == "clustered" then .ok (.bool i.clustered)
  else if a == "compression" then .ok (.str i.compression)
  else if a == "unique" then .ok (.bool i.unique)
  else .error .attributeError

/-- ReflectedPrimaryKey attribute derivation (same columns/clustered rules
as indexes; compression from the detail row). -/
def pkAttrVal (pk : LivePK) (a : String) : Except Err Val :=
  if a == "columns" then .ok (.strs (pk.keyColumns.map pyLower))
  else if a == "clustered" then .ok (.bool pk.clustered)
  else if a == "compression" then .ok (.str pk.compression)
  else .error .attributeError

/-- ReflectedPartition.get_attr_column (reflected.py lines 943-944). -/
def schemeAttrVal (ps : LiveScheme) (a : String) : Except Err Val :=
  if a == "column" then .ok (.str (pyLower ps.column))
  else .error .attributeError

/-- The pure core of the table-scope attribute read: locate the detail row
for the node (an empty result is the fatal get_details DBError, reflected.py
lines 352-356) and derive the attribute. -/
def tableReadAttrCore (lv : LiveTable) (n : RNode) (a : String) : Except Err Val :=
  match n.otype with
  | .columns =>
    match findColumn lv n.name with
    | some c => columnAttrVal c a
    | Option.none => .error .dbError
  | .indexes =>
    match findIndex lv n.name with
    | some i => indexAttrVal i a
    | Option.none => .error .dbError
  | .primary_keys =>
    match lv.pk with
    | some pk => if (pyLower pk.name) == (pyLower n.name) then pkAttrVal pk a else .error .dbError
    | Option.none => .error .dbError
  | .partitions =>
    match findScheme lv n.name with
    | some ps => schemeAttrVal ps a
    | Option.none => .error .dbError
  | _ => .error .notImplemented

/-- The live attribute valuation a node's equality comparison reads (the
comparisons only ever run against live objects whose detail rows exist, so
the error case, mapped to None here, does not arise in the embedded
runs). -/
def liveAttrFun (lv : LiveTable) (n : RNode) : String → Val :=
  fun a =>
    match tableReadAttrCore lv n a with
    | .ok v => v
    | .error _ => Val.none

/-- ReflectedEntity.__eq__ at table scope, as the engine's sweep and the
index from_declared override evaluate it. -/
def tableReflEq (lv : LiveTable) (n : RNode) (d : DNode) : Bool :=
  reflectedEq n.otype n.name (liveAttrFun lv n) d

/-- lift a pure Except computation into the monad. -/
def liftE (e : Except Err α) : M σ α :=
  fun s =>
    match e with
    | .ok a => (.ok a, s, [])
    | .error er => (.error er, s, [])

/-- ReflectedColumn/Index/PrimaryKey/Partition `_list_names_ex` (reflected.py
lines 727-730, 578-581, 425-431, 872-876).  The parent argument is unused
because the live state already is the one table's subtree. -/
def tableListNames (_parent : RNode) (t : EType) : M LiveTable (List String) := do
  let lv ← getLiveM
  match t with
  | .columns => pure (lv.columns.map (fun c => (pyLower c.name)))
  | .indexes => pure (lv.indexes.map (fun i => i.name))
  | .primary_keys => pure (match lv.pk with | some pk => [pk.name] | Option.none => [])
  | .partitions => pure (lv.partitions.map (fun ps => ps.psName))
  | _ => mThrow .notImplemented

/-- The `_name_exists_ex` overrides (reflected.py lines 732-735, 583-586,
433-436, 878-882). -/
def tableNameExists (_parent : RNode) (t : EType) (n : String) : M LiveTable Bool := do
  let lv ← getLiveM
  match t with
  | .columns => pure (findColumn lv n).isSome
  | .indexes => pure (findIndex lv n).isSome
  | .primary_keys =>
    pure (match lv.pk with | some pk => (pyLower pk.name) == (pyLower n) | Option.none => false)
  | .partitions => pure (findScheme lv n).isSome
  | _ => mThrow .notImplemented

/-- ReflectedPrimaryKey.from_declared (reflected.py lines 460-472): the
live primary-key column list must equal the declared column list (both
lowercased); on a match the node is built from the first detail row's
pk_name (an empty detail list there would raise IndexError). -/
def pkFromDeclaredC (parent : RNode) (d : DNode) : M LiveTable RNode := do
  let lv ← getLiveM
  let liveCols := match lv.pk with | some pk => pk.keyColumns.map pyLower | Option.none => []
  let dCols := (valStrsOf (dAttr d "columns")).map pyLower
  if liveCols == dCols then
    match lv.pk with
    | some pk => pure (mkChildNode parent .primary_keys pk.name)
    | Option.none => mThrow .indexError
  else
    mThrow .dbObjectDoesntExist

/-- ReflectedIndex.from_declared (reflected.py lines 588-597): scan all
live indexes of the table and return the first whose `__eq__` against the
declared index holds. -/
def ixFromDeclaredC (parent : RNode) (d : DNode) : M LiveTable RNode := do
  let lv ← getLiveM
  match (lv.indexes.map (fun i => i.name)).find?
      (fun nm => tableReflEq lv (mkChildNode parent .indexes nm) d) with
  | some nm => pure (mkChildNode parent .indexes nm)
  | Option.none => mThrow .dbObjectDoesntExist

/-- ReflectedPartition.from_declared (reflected.py lines 884-894): look up
the partition scheme on the table for the declared column. -/
def partFromDeclaredC (parent : RNode) (d : DNode) : M LiveTable RNode := do
  let lv ← getLiveM
  let dcol := valStrOf (dAttr d "column")
  match lv.partitions.find? (fun ps => (pyLower ps.column) == (pyLower dcol)) with
  | some ps => pure (mkChildNode parent .partitions ps.psName)
  | Option.none => mThrow .dbObjectDoesntExist

/-- The live column an executed ADD/ALTER COLUMN statement with the
declared definition produces. -/
def liveColumnOfDeclared (d : DNode) : LiveColumn :=
  { name := d.name
    data_type := valStrOf (dAttr d "data_type")
    nullable := valBoolOf (dAttr d "nullable")
    identity := valBoolOf (dAttr d "identity")
    char_max_len := valONatOf (dAttr d "char_max_len")
    datetime_precision := valONatOf (dAttr d "datetime_precision")
    numeric_precision := valONatOf (dAttr d "numeric_precision")
    numeric_scale := valONatOf (dAttr d "numeric_scale") }

/-- The live index a CREATE INDEX from these attributes produces, under
the given name. -/
def liveIndexOfDeclared (nm : String) (d : DNode) : LiveIndex :=
  { name := nm
    keyColumns := valStrsOf (dAttr d "columns")
    includedColumns := valSetOf (dAttr d "included_columns")
    clustered := valBoolOf (dAttr d "clustered")
    unique := valBoolOf (dAttr d "unique")
    compression := valStrOf (dAttr d "compression")
    isUniqueConstraint := false }

/-- The live primary key a CREATE PK from these attributes produces. -/
def livePKOfDeclared (nm : String) (d : DNode) : LivePK :=
  { name := nm
    keyColumns := valStrsOf (dAttr d "columns")
    clustered := valBoolOf (dAttr d "clustered")
    compression := valStrOf (dAttr d "compression") }

/-- ReflectedColumn._create_ex (reflected.py lines 737-740). -/
def columnCreateEx (d : DNode) : M LiveTable DNode := do
  emitStmt (.addColumn d.name)
  let lv ← getLiveM
  setLiveM { lv with columns := lv.columns ++ [liveColumnOfDeclared d] }
  pure d

/-- ReflectedPrimaryKey._create_ex via create_helper (reflected.py lines
438-441, 474-491). -/
def pkCreateEx (d : DNode) : M LiveTable DNode := do
  emitStmt (.createPkS d.name)
  let lv ← getLiveM
  setLiveM { lv with pk := some (livePKOfDeclared d.name d) }
  pure d

/-- ReflectedIndex create_helper (reflected.py lines 599-635); the
create_on filegroup determination consults the live partitions and only
shapes statement text. -/
def ixCreateEx (d : DNode) : M LiveTable DNode := do
  emitStmt (.createIndexS d.name)
  let lv ← getLiveM
  setLiveM { lv with indexes := lv.indexes ++ [liveIndexOfDeclared d.name d] }
  pure d

def rebuildEmit : List LiveIndex → M LiveTable Unit
  | [] => mPure ()
  | i :: rest => do
    emitStmt (.createIndexS i.name)
    rebuildEmit rest

/-- ReflectedTable.recreate_indexes_on_filegroup (reflected.py lines
1066-1072): rebuild the clustered index on the filegroup first (when
there is none, `None.recreate_new_filegroup` raises AttributeError), then
every nonclustered index, then commit.  DROP_EXISTING recreation keeps the
index definitions, so the live index list is unchanged. -/
def recreateIndexesOnFilegroupM : M LiveTable Unit := do
  let lv ← getLiveM
  match lv.indexes.find? (fun i => i.clustered) with
  | Option.none => mThrow .attributeError
  | some ci => do
    emitStmt (.createIndexS ci.name)
    rebuildEmit (lv.indexes.filter (fun i => !i.clustered))
    commitM

/-- ReflectedPartition._create_ex (reflected.py lines 896-936): fetch the
partition column through get_child (DBObjectDoesntExistError when
absent), require a datetime type, create the partition function and
scheme (their boundary values come from MIN/MAX queries or today's date
and only shape statement text), commit, rebuild the table's indexes on
the scheme, and finally assign the generated scheme name to the declared
object's name (line 936). -/
def partitionCreateEx (d : DNode) : M LiveTable DNode := do
  let lv ← getLiveM
  let dcol := valStrOf (dAttr d "column")
  match findColumn lv dcol with
  | Option.none => mThrow .dbObjectDoesntExist
  | some pcol =>
    if !(["datetime", "datetime2"].contains pcol.data_type) then
      mThrow .valueError
    else do
      let pfName := "pf_" ++ lv.schemaName ++ "_" ++ lv.tableName ++ "_" ++ pcol.name
      emitStmt (.createPartitionFn pfName)
      let psName := "ps_" ++ lv.schemaName ++ "_" ++ lv.tableName ++ "_" ++ pcol.name
      emitStmt (.createPartitionScheme psName)
      commitM
      recreateIndexesOnFilegroupM
      let lv2 ← getLiveM
      setLiveM { lv2 with partitions := lv2.partitions ++ [{ psName := psName, column := pcol.name }] }
      pure (d.setName psName)

/-- ReflectedIndex._delete_ex (reflected.py lines 637-646): when the
index backs a unique constraint, drop the constraint, else drop the
index (a missing detail row would be `None.is_unique_constraint`, an
AttributeError). -/
def indexDeleteEx (n : RNode) : M LiveTable Unit := do
  let lv ← getLiveM
  match findIndex lv n.name with
  | Option.none => mThrow .attributeError
  | some i => do
    if i.isUniqueConstraint then
      emitStmt (.dropConstraint n.name)
    else
      emitStmt (.dropIndex n.name)
    setLiveM { lv with indexes := lv.indexes.filter (fun j => (pyLower j.name) != (pyLower i.name)) }

/-- ReflectedPrimaryKey._delete_ex (reflected.py lines 448-451). -/
def pkDeleteEx (n : RNode) : M LiveTable Unit := do
  emitStmt (.dropConstraint n.name)
  let lv ← getLiveM
  setLiveM { lv with pk :=
    match lv.pk with
    | some pk => if (pyLower pk.name) == (pyLower n.name) then Option.none else some pk
    | Option.none => Option.none }

/-- ReflectedEntity.delete specialised to an index node (can_delete is
True for indexes); definitionally equal to `deleteEntity tableOps` at
such a node, needed here because drop_associated_indexes runs inside the
column operations that tableOps itself supplies. -/
def deleteIndexConc (n : RNode) : M LiveTable (Option Bool) := do
  let c ← askConfirm
  if c then do
    indexDeleteEx n
    commitM
    pure Option.none
  else
    pure (some false)

/-- ReflectedTable.get_indexes_for_column (reflected.py lines 1058-1064)
with includes_column (lines 559-565): the live indexes whose key-column
set contains the column name. -/
def indexesForColumn (lv : LiveTable) (columnName : String) : List LiveIndex :=
  lv.indexes.filter (fun i => (i.keyColumns.map pyLower).contains columnName)

def dropIdxLoop : List RNode → M LiveTable Bool
  | [] => mPure true
  | i :: rest => do
    let r ← deleteIndexConc i
    if !(truthyOB r) then
      pure false
    else
      dropIdxLoop rest

/-- ReflectedColumn.drop_associated_indexes (reflected.py lines 829-834):
delete every index involving the column, reporting False as soon as one
delete() call returns a falsy value. -/
def dropAssociatedIndexes (n : RNode) : M LiveTable Bool := do
  let lv ← getLiveM
  dropIdxLoop ((indexesForColumn lv n.name).map (fun i => mkChildNode (parentNode n) .indexes i.name))

/-- ReflectedColumn._delete_ex (reflected.py lines 836-845). -/
def columnDeleteEx (n : RNode) : M LiveTable Unit := do
  let ok ← dropAssociatedIndexes n
  if ok then do
    emitStmt (.dropColumn n.name)
    commitM
    let lv ← getLiveM
    setLiveM { lv with columns := lv.columns.filter (fun c => (pyLower c.name) != (pyLower n.name)) }
  else
    pure ()

/-- ReflectedPartition._delete_ex (reflected.py lines 946-954): rebuild
the table's indexes on the PRIMARY filegroup, drop the scheme, drop the
function (named after the partition column, the node's cached attribute,
read here from the scheme row before the drop), commit. -/
def schemeDeleteEx (n : RNode) : M LiveTable Unit := do
  let lv ← getLiveM
  match findScheme lv n.name with
  | Option.none => mThrow .dbError
  | some ps => do
    recreateIndexesOnFilegroupM
    emitStmt (.dropPartitionScheme n.name)
    emitStmt (.dropPartitionFn ("pf_" ++ lv.schemaName ++ "_" ++ lv.tableName ++ "_" ++ ps.column))
    commitM
    let lv2 ← getLiveM
    setLiveM { lv2 with partitions := lv2.partitions.filter (fun q => (pyLower q.psName) != (pyLower n.name)) }

def tableDeleteEx (n : RNode) : M LiveTable Unit :=
  match n.otype with
  | .indexes => indexDeleteEx n
  | .primary_keys => pkDeleteEx n
  | .columns => columnDeleteEx n
  | .partitions => schemeDeleteEx n
  | _ => mThrow .notImplemented

/-- The `_rename_ex` overrides: sp_rename for columns (reflected.py lines
747-751); for indexes and primary keys the executed rename commits and
assigns self.name (lines 453-458); other table-scope types have no
override, so the base raises NotImplementedError. -/
def tableRenameEx (n : RNode) (newName : String) : M LiveTable RNode :=
  match n.otype with
  | .columns => do
    emitStmt (.renameS .columns n.name newName)
    let lv ← getLiveM
    setLiveM { lv with columns := (lv.columns.map
      (fun c => if (pyLower c.name) == (pyLower n.name) then { c with name := newName } else c)) }
    pure n
  | .indexes => do
    emitStmt (.renameS .indexes n.name newName)
    commitM
    let lv ← getLiveM
    setLiveM { lv with indexes := (lv.indexes.map
      (fun i => if (pyLower i.name) == (pyLower n.name) then { i with name := newName } else i)) }
    pure { n with name := newName }
  | .primary_keys => do
    emitStmt (.renameS .primary_keys n.name newName)
    commitM
    let lv ← getLiveM
    setLiveM { lv with pk :=
      match lv.pk with
      | some pk => if (pyLower pk.name) == (pyLower n.name) then some { pk with name := newName } else some pk
      | Option.none => Option.none }
    pure { n with name := newName }
  | _ => mThrow .notImplemented

/-- ReflectedColumn._alter_column (reflected.py lines 817-827): execute
ALTER COLUMN with the declared definition (commit), the live column now
carrying the declared attributes, and reset every cached attribute of the
node. -/
def alterColumnM (n : RNode) (d : DNode) : M LiveTable RNode := do
  emitStmt (.alterColumn d.name)
  commitM
  let lv ← getLiveM
  setLiveM { lv with columns := (lv.columns.map
    (fun c => if (pyLower c.name) == (pyLower d.name) then liveColumnOfDeclared d else c)) }
  pure (resetAllAttributes n)

/-- ReflectedColumn.set_attr_data_type (reflected.py lines 809-815): the
column is altered only when drop_associated_indexes reports success,
otherwise the change is skipped with a log line. -/
def setAttrDataType (n : RNode) (d : DNode) : M LiveTable RNode := do
  let ok ← dropAssociatedIndexes n
  if ok then
    alterColumnM n d
  else
    pure n

/-- The classmethod create at the column class (reflected.py lines
265-273), needed inside set_attr_identity. -/
def createColumnConc (parent : RNode) (d : DNode) : M LiveTable DNode := do
  let d1 ← columnCreateEx d
  commitM
  let ex ← tableNameExists parent .columns d1.name
  if !ex then
    mThrow .dbError
  else
    pure d1

/-- ReflectedEntity.delete specialised to a column node (can_delete is
True for columns). -/
def deleteColumnConc (n : RNode) : M LiveTable (Option Bool) := do
  let c ← askConfirm
  if c then do
    columnDeleteEx n
    commitM
    pure Option.none
  else
    pure (some false)

/-- ReflectedColumn.set_attr_identity (reflected.py lines 785-792):
refused with a plain Exception when the table already has a primary key;
otherwise the column is dropped and re-created. -/
def setAttrIdentity (n : RNode) (d : DNode) : M LiveTable RNode := do
  let lv ← getLiveM
  match lv.pk with
  | some _ => mThrow .pyException
  | Option.none => do
    let _deleted ← deleteColumnConc n
    let _created ← createColumnConc (parentNode n) d
    pure n

/-- ReflectedPrimaryKey.set_attr_compression (reflected.py lines 517-528,
inherited by indexes): ALTER INDEX REBUILD with the declared compression,
committed. -/
def setAttrCompression (n : RNode) (d : DNode) : M LiveTable RNode := do
  emitStmt (.alterIndexS n.name)
  commitM
  let lv ← getLiveM
  match n.otype with
  | .primary_keys => do
    setLiveM { lv with pk :=
      match lv.pk with
      | some pk => if (pyLower pk.name) == (pyLower n.name) then some { pk with compression := valStrOf (dAttr d "compression") } else some pk
      | Option.none => Option.none }
    pure n
  | _ => do
    setLiveM { lv with indexes := (lv.indexes.map
      (fun i => if (pyLower i.name) == (pyLower n.name) then { i with compression := valStrOf (dAttr d "compression") } else i)) }
    pure n

/-- recreate_new_attributes (reflected.py lines 533-539, used by
set_attr_clustered and set_attr_included_columns): re-create the
index/primary key under its current name with the declared attributes and
DROP_EXISTING semantics. -/
def recreateNewAttributes (n : RNode) (d : DNode) : M LiveTable RNode :=
  match n.otype with
  | .primary_keys => do
    emitStmt (.createPkS n.name)
    let lv ← getLiveM
    setLiveM { lv with pk := some (livePKOfDeclared n.name d) }
    pure n
  | _ => do
    emitStmt (.createIndexS n.name)
    let lv ← getLiveM
    setLiveM { lv with indexes := (lv.indexes.map
      (fun i => if (pyLower i.name) == (pyLower n.name) then liveIndexOfDeclared n.name d else i)) }
    pure n

/-- The `set_attr_<name>` method table at table scope: exactly the setters
reflected.py defines.  Primary keys and indexes have no set_attr_columns,
indexes no set_attr_unique, partitions no set_attr_column. -/
def tableSetAttrMethod (t : EType) (a : String) : Option (RNode → DNode → M LiveTable RNode) :=
  match t with
  | .columns =>
    if a == "data_type" then some setAttrDataType
    else if a == "identity" then some setAttrIdentity
    else if a == "nullable" || a == "char_max_len" || a == "datetime_precision"
        || a == "numeric_precision" || a == "numeric_scale" then some alterColumnM
    else Option.none
  | .primary_keys =>
    if a == "compression" then some setAttrCompression
    else if a == "clustered" then some recreateNewAttributes
    else Option.none
  | .indexes =>
    if a == "compression" then some setAttrCompression
    else if a == "clustered" then some recreateNewAttributes
    else if a == "included_columns" then some recreateNewAttributes
    else Option.none
  | _ => Option.none

def tableCreateEx (_parent : RNode) (t : EType) (d : DNode) : M LiveTable DNode :=
  match t with
  | .columns => columnCreateEx d
  | .primary_keys => pkCreateEx d
  | .indexes => ixCreateEx d
  | .partitions => partitionCreateEx d
  | _ => mThrow .notImplemented

/-- The from_declared overrides at table scope (primary keys, indexes,
partitions); columns use the by_name default. -/
def tableFromDeclaredOverride (t : EType) : Option (RNode → DNode → M LiveTable RNode) :=
  match t with
  | .primary_keys => some pkFromDeclaredC
  | .indexes => some ixFromDeclaredC
  | .partitions => some partFromDeclaredC
  | _ => Option.none

/-- The concrete operation table for the table subtree. -/
def tableOps : Ops LiveTable where
  listNames := tableListNames
  nameExists := tableNameExists
  fromDeclaredOverride := tableFromDeclaredOverride
  createEx := tableCreateEx
  deleteEx := tableDeleteEx
  renameEx := tableRenameEx
  readAttrFresh := fun n a => do
    let lv ← getLiveM
    liftE (tableReadAttrCore lv n a)
  setAttrMethod := tableSetAttrMethod
  reflEq := tableReflEq

/-! ## Concrete instantiation: logins under a server

ReflectedLogin is the one type with `can_create = False`, so get_or_create
behaviour at logins needs the server scope (reflected.py lines
1378-1422). -/

structure LiveLogin where
  name : String
  type_desc : String
  serverRoles : List String
deriving DecidableEq, Repr

structure LiveServer where
  logins : List LiveLogin
deriving DecidableEq, Repr

def findLogin (lv : LiveServer) (n : String) : Option LiveLogin :=
  lv.logins.find? (fun l => (pyLower l.name) == (pyLower n))

/-- ReflectedLogin attribute derivation: type_desc directly from the
detail row, server_roles via get_attr_server_roles (reflected.py lines
1400-1401), password as the constant dummy (lines 1411-1412). -/
def loginAttrCore (lv : LiveServer) (n : RNode) (a : String) : Except Err Val :=
  match n.otype with
  | .logins =>
    match findLogin lv n.name with
    | some l =>
      if a == "type_desc" then .ok (.str l.type_desc)
      else if a == "server_roles" then .ok (.strset l.serverRoles)
      else if a == "password" then .ok (.str "dummypassword")
      else .error .attributeError
    | Option.none => .error .dbError
  | _ => .error .notImplemented

/-- ReflectedLogin.set_attr_server_roles (reflected.py lines 1403-1409):
one committed ALTER SERVER ROLE per role to add and per role to drop. -/
def roleChangeEmit (login : String) : List String → M LiveServer Unit
  | [] => mPure ()
  | r :: rest => do
    emitStmt (.alterRoleS r login)
    commitM
    roleChangeEmit login rest

def setAttrServerRoles (n : RNode) (d : DNode) : M LiveServer RNode := do
  let lv ← getLiveM
  let liveRoles := match findLogin lv n.name with | some l => l.serverRoles | Option.none => []
  let declaredRoles := valSetOf (dAttr d "server_roles")
  roleChangeEmit n.name (declaredRoles.filter (fun r => !liveRoles.contains r))
  roleChangeEmit n.name (liveRoles.filter (fun r => !declaredRoles.contains r))
  let lv2 ← getLiveM
  setLiveM { lv2 with logins := (lv2.logins.map
    (fun l => if (pyLower l.name) == (pyLower n.name) then { l with serverRoles := declaredRoles } else l)) }
  pure n

/-- The concrete operation table for logins under the server root.
Logins use the default by_name matching (no from_declared override); the
base class supplies no `_rename_ex` for them. -/
def serverOps : Ops LiveServer where
  listNames := fun _ t => do
    let lv ← getLiveM
    match t with
    | .logins => pure (lv.logins.map (fun l => l.name))
    | _ => mThrow .notImplemented
  nameExists := fun _ t n => do
    let lv ← getLiveM
    match t with
    | .logins => pure (findLogin lv n).isSome
    | _ => mThrow .notImplemented
  fromDeclaredOverride := fun _ => Option.none
  createEx := fun _ t d =>
    match t with
    | .logins => do
      emitStmt (.createLoginS d.name)
      let lv ← getLiveM
      setLiveM { lv with logins := lv.logins ++
        [{ name := d.name, type_desc := valStrOf (dAttr d "type_desc"),
           serverRoles := valSetOf (dAttr d "server_roles") }] }
      pure d
    | _ => mThrow .notImplemented
  deleteEx := fun n =>
    match n.otype with
    | .logins => do
      emitStmt (.deleteLoginS n.name)
      let lv ← getLiveM
      setLiveM { lv with logins := lv.logins.filter (fun l => (pyLower l.name) != (pyLower n.name)) }
    | _ => mThrow .notImplemented
  renameEx := fun _ _ => mThrow .notImplemented
  readAttrFresh := fun n a => do
    let lv ← getLiveM
    liftE (loginAttrCore lv n a)
  setAttrMethod := fun t a =>
    match t with
    | .logins => if a == "server_roles" then some setAttrServerRoles else Option.none
    | _ => Option.none
  reflEq := fun lv n d =>
    reflectedEq n.otype n.name
      (fun a => match loginAttrCore lv n a with | .ok v => v | .error _ => Val.none) d

/-! ## The declared-tree frame relation

Only ReflectedPartition._create_ex writes to a declared node (the name
assignment at reflected.py line 936); this relation states exactly that
allowance: two declared trees identical except possibly in the names of
partition nodes. -/

mutual

def dSamePartB : DNode → DNode → Bool
  | .mk t n o i cs a, .mk t2 n2 o2 i2 cs2 a2 =>
    decide (t = t2) && decide (o = o2) && decide (i = i2) && decide (a = a2) &&
      (decide (t = EType.partitions) || decide (n = n2)) && dSamePartList cs cs2

def dSamePartList : List DNode → List DNode → Bool
  | [], [] => true
  | c :: cs, c2 :: cs2 => dSamePartB c c2 && dSamePartList cs cs2
  | _, _ => false

end

/-- The frame property of the concrete `_create_ex` overrides: creating a
declared node of its own type returns it unchanged except that a
partition's name may be overwritten. -/
def CreatePreserves (ops : Ops σ) : Prop :=
  ∀ parent t dc s dc2 s2 ev, dc.otype = t →
    ops.createEx parent t dc s = (.ok dc2, s2, ev) → dSamePartB dc dc2 = true

/-- The recursive-alignment parameter of the child-processing loop
preserves declared nodes up to partition names. -/
def AlignRecPreserves (f : DNode → RNode → M σ (DNode × RNode)) : Prop :=
  ∀ dc rc s dc2 rc2 s2 ev,
    f dc rc s = (.ok (dc2, rc2), s2, ev) → dSamePartB dc dc2 = true

/-- Projection helpers for stating facts about run results. -/
def resultDeclared (r : Except Err (DNode × RNode)) : Option DNode :=
  match r with
  | .ok (d, _) => some d
  | .error _ => Option.none

/-! ## Concrete inputs for the runs the claims are settled on -/

/-- The always-approve confirmation oracle (the automated mode of spec
section 5). -/
def alwaysYes : Nat → Bool := fun _ => true

def tableNodeEx : RNode :=
  { otype := .tables, name := "t", path := [(.schemas, "dbo")], cache := [] }

def colNodeEx : RNode := mkChildNode tableNodeEx .columns "c"

/-- A live integer column named c. -/
def exCol : LiveColumn :=
  { name := "c", data_type := "int", nullable := false, identity := false,
    char_max_len := Option.none, datetime_precision := Option.none,
    numeric_precision := Option.none, numeric_scale := Option.none }

/-- A live nonclustered index on column c. -/
def exIx : LiveIndex :=
  { name := "ix_c", keyColumns := ["c"], includedColumns := [],
    clustered := false, unique := false, compression := "NONE",
    isUniqueConstraint := false }

def lvWithIx : LiveTable :=
  { schemaName := "dbo", tableName := "t", columns := [exCol],
    pk := Option.none, indexes := [exIx], partitions := [] }

def lvPlain : LiveTable :=
  { schemaName := "dbo", tableName := "t", columns := [exCol],
    pk := Option.none, indexes := [], partitions := [] }

def stWithIx : St LiveTable :=
  { live := lvWithIx, confirms := alwaysYes, nAsked := 0 }

def stPlain : St LiveTable :=
  { live := lvPlain, confirms := alwaysYes, nAsked := 0 }

/-- Declared column c as it is (int). -/
def dColInt : DNode :=
  DNode.mk .columns "c" Option.none .noneI []
    [("data_type", .str "int"), ("char_max_len", Val.none),
     ("datetime_precision", Val.none), ("numeric_precision", Val.none),
     ("numeric_scale", Val.none), ("nullable", .bool false), ("identity", .bool false)]

/-- Declared column c with a changed storage type (varchar(255)). -/
def dColVarchar : DNode :=
  DNode.mk .columns "c" Option.none .noneI []
    [("data_type", .str "varchar"), ("char_max_len", .nat 255),
     ("datetime_precision", Val.none), ("numeric_precision", Val.none),
     ("numeric_scale", Val.none), ("nullable", .bool false), ("identity", .bool false)]

/-- Declared column c made nullable. -/
def dColNullable : DNode :=
  DNode.mk .columns "c" Option.none .noneI []
    [("data_type", .str "int"), ("char_max_len", Val.none),
     ("datetime_precision", Val.none), ("numeric_precision", Val.none),
     ("numeric_scale", Val.none), ("nullable", .bool true), ("identity", .bool false)]

/-- C6 parent: declares only the varchar column, declares no indexes, and
has indexes in its ignore-extra-children set. -/
def dTableC6 : DNode :=
  DNode.mk .tables "t" Option.none (Ignore.setI [.indexes]) [dColVarchar] []

/-- C7 parent: one declared column already matching the live state. -/
def dTableC7 : DNode :=
  DNode.mk .tables "t" Option.none .noneI [dColInt] []

/-- C2: a declared table with a child column named a. -/
def dColA : DNode :=
  DNode.mk .columns "a" Option.none .noneI []
    [("data_type", .str "int"), ("char_max_len", Val.none),
     ("datetime_precision", Val.none), ("numeric_precision", Val.none),
     ("numeric_scale", Val.none), ("nullable", .bool false), ("identity", .bool false)]

def dTableC2 : DNode :=
  DNode.mk .tables "tbl" Option.none .noneI [dColA] []

/-- C3 live state: a datetime2 column, a clustered index on it, no
partition scheme yet. -/
def colDt : LiveColumn :=
  { name := "dt", data_type := "datetime2", nullable := false, identity := false,
    char_max_len := Option.none, datetime_precision := some 7,
    numeric_precision := Option.none, numeric_scale := Option.none }

def ixDt : LiveIndex :=
  { name := "ix_dt", keyColumns := ["dt"], includedColumns := [],
    clustered := true, unique := false, compression := "NONE",
    isUniqueConstraint := false }

def lvC3 : LiveTable :=
  { schemaName := "dbo", tableName := "t", columns := [colDt],
    pk := Option.none, indexes := [ixDt], partitions := [] }

def stC3 : St LiveTable :=
  { live := lvC3, confirms := alwaysYes, nAsked := 0 }

def dColDt : DNode :=
  DNode.mk .columns "dt" Option.none .noneI []
    [("data_type", .str "datetime2"), ("char_max_len", Val.none),
     ("datetime_precision", .nat 7), ("numeric_precision", Val.none),
     ("numeric_scale", Val.none), ("nullable", .bool false), ("identity", .bool false)]

def dIxDt : DNode :=
  DNode.mk .indexes "ix_dt" Option.none .noneI []
    [("columns", .strs ["dt"]), ("clustered", .bool true),
     ("compression", .str "NONE"), ("included_columns", Val.none), ("unique", .bool false)]

/-- The declared Partition: its name is the empty string at construction
(declared.py lines 284-295). -/
def dPartDt : DNode :=
  DNode.mk .partitions "" Option.none .noneI [] [("column", .str "dt")]

def dTableC3 : DNode :=
  DNode.mk .tables "t" Option.none .noneI [dColDt, dIxDt, dPartDt] []

/-- C5: a declared index whose stored column tuple contains an uppercase
name (possible for a caller that bypasses the lowercasing constructor),
so the index created from it never re-matches the lowercased live
read. -/
def dIxUpper : DNode :=
  DNode.mk .indexes "ix_u" Option.none .noneI []
    [("columns", .strs ["C"]), ("clustered", .bool false),
     ("compression", .str "NONE"), ("included_columns", Val.none), ("unique", .bool false)]

def srvNodeEx : RNode :=
  { otype := .servers, name := "srv", path := [], cache := [] }

def dLoginSvc : DNode :=
  DNode.mk .logins "svc" Option.none .noneI []
    [("type_desc", .str "SQL_LOGIN"), ("server_roles", .strset []), ("password", Val.none)]

def lvSrvEmpty : LiveServer := { logins := [] }

def stSrv : St LiveServer :=
  { live := lvSrvEmpty, confirms := alwaysYes, nAsked := 0 }

/-- A partition node for exercising the no-setter branch of
set_attribute. -/
def partNodeEx : RNode := mkChildNode tableNodeEx .partitions "ps_x"

/-- States reached mid-run, named for use in witness statements. -/
def exIxU : LiveIndex :=
  { name := "ix_u", keyColumns := ["C"], includedColumns := [],
    clustered := false, unique := false, compression := "NONE", isUniqueConstraint := false }

def lvUpperIx : LiveTable :=
  { lvPlain with indexes := [exIxU] }

def stUpperIx : St LiveTable :=
  { live := lvUpperIx, confirms := alwaysYes, nAsked := 0 }

def lvNoCols : LiveTable :=
  { lvPlain with columns := [] }

def stNoCols : St LiveTable :=
  { live := lvNoCols, confirms := alwaysYes, nAsked := 0 }

def lvColCreated : LiveTable :=
  { lvNoCols with columns := [liveColumnOfDeclared dColVarchar] }

def stColCreated : St LiveTable :=
  { live := lvColCreated, confirms := alwaysYes, nAsked := 0 }

def lvNullable : LiveTable :=
  { lvPlain with columns := [liveColumnOfDeclared dColNullable] }

def stNullable1 : St LiveTable :=
  { live := lvNullable, confirms := alwaysYes, nAsked := 1 }

def colNodeCached : RNode :=
  { colNodeEx with cache := [("nullable", Val.bool true)] }

/-- A parent that declares a column child and ignores extra columns. -/
def dTableIgnoreCols : DNode :=
  DNode.mk .tables "t" Option.none (Ignore.setI [.columns]) [dColInt] []

/-- The C3 run's results, written out for the amended-claim witness. -/
def dPartDtAfter : DNode :=
  DNode.mk .partitions "ps_dbo_t_dt" Option.none .noneI [] [("column", .str "dt")]

def dTableC3After : DNode :=
  DNode.mk .tables "t" Option.none .noneI [dColDt, dIxDt, dPartDtAfter] []

def lvC3After : LiveTable :=
  { lvC3 with partitions := [{ psName := "ps_dbo_t_dt", column := "dt" }] }

def stC3After : St LiveTable :=
  { live := lvC3After, confirms := alwaysYes, nAsked := 0 }

def evC3After : List Event :=
  [Event.exec (.createPartitionFn "pf_dbo_t_dt"),
   Event.exec (.createPartitionScheme "ps_dbo_t_dt"),
   Event.commit,
   Event.exec (.createIndexS "ix_dt"),
   Event.commit,
   Event.commit]

/-! # Theorems -/

/-! ## Monad unfolding helpers -/

theorem bindM_eq (m : M σ α) (f : α → M σ β) : (m >>= f) = mBind m f := rfl

theorem pureM_eq (a : α) : (pure a : M σ α) = mPure a := rfl

/-- Inversion of a successful bind: the first computation succeeded, the
continuation succeeded from its state, and the trace is the
concatenation. -/
theorem mBind_ok_inv {m : M σ α} {f : α → M σ β} {s : St σ} {b : β} {s2 : St σ}
    {ev : List Event} (h : mBind m f s = (.ok b, s2, ev)) :
    ∃ a s1 ev1 ev2, m s = (.ok a, s1, ev1) ∧ f a s1 = (.ok b, s2, ev2) ∧ ev = ev1 ++ ev2 := by
  rcases hm : m s with ⟨r1, s1, ev1⟩
  cases r1 with
  | error e =>
    have hc : mBind m f s = (.error e, s1, ev1) := by
      unfold mBind
      rw [hm]
    rw [hc] at h
    simp at h
  | ok a =>
    rcases hf : f a s1 with ⟨r2, s2x, ev2⟩
    have hc : mBind m f s = (r2, s2x, ev1 ++ ev2) := by
      unfold mBind
      rw [hm]
      simp only
      rw [hf]
    rw [hc] at h
    cases r2 with
    | error e => simp at h
    | ok b2 =>
      simp only [Prod.mk.injEq, Except.ok.injEq] at h
      obtain ⟨hb, hs, hev⟩ := h
      subst hb
      subst hs
      exact ⟨a, s1, ev1, ev2, rfl, hf, hev.symm⟩

/-! ## C1 -/

/-- C1 (code bug): on a live table with one index ix_c on column c, all
deletions allowed and confirmed, set_attr_data_type first deletes the
dependent index successfully (DROP INDEX is executed and committed, and
the live index list is empty afterwards), yet the ALTER COLUMN statement
is never executed and the method returns without raising: delete()
returns None instead of True on its successful path (reflected.py lines
326-339), which drop_associated_indexes (lines 829-834) treats as a
refusal.  The claim (and spec section 4.3) say the alteration proceeds
exactly when every dependent index was successfully removed. -/
theorem c1_alter_skipped_after_successful_index_drop :
    (setAttrDataType colNodeEx dColVarchar stWithIx).2.2
        = [Event.exec (.dropIndex "ix_c"), Event.commit]
    ∧ (setAttrDataType colNodeEx dColVarchar stWithIx).2.1.live.indexes = []
    ∧ ((setAttrDataType colNodeEx dColVarchar stWithIx).2.2).contains
        (Event.exec (.alterColumn "c")) = false
    ∧ (setAttrDataType colNodeEx dColVarchar stWithIx).1 = .ok colNodeEx := by
  refine ⟨?_, ?_, ?_, ?_⟩ <;> rfl

/-! ## C2 -/

/-- C2 (code bug): resolving the one-element chain ["a"] on a declared
table that has a child column named a raises AttributeError instead of
returning the child: get_child_by_name iterates the non-existent
attribute `self.child_objects` (declared.py line 98).  The second
conjunct shows the child is present and findable by the typed lookup. -/
theorem c2_get_object_by_id_attribute_error :
    dGetObjectById dTableC2 ["a"] = .error .attributeError
    ∧ (dGetChild dTableC2 .columns "a").map DNode.name = .ok "a" := by
  refine ⟨?_, ?_⟩ <;> rfl

/-! ## C3 counterexample -/

/-- C3 (counterexample): aligning a declared table that declares a
partition against a live table without one creates the partition scheme,
and ReflectedPartition._create_ex assigns the generated scheme name to the
declared partition node (reflected.py line 936): the declared child's
name changes from its construction-time value "" to "ps_dbo_t_dt". -/
theorem c3_declared_partition_name_mutated :
    dTableC3.children.map DNode.name = ["dt", "ix_dt", ""]
    ∧ ((resultDeclared (alignEntity tableOps 2 dTableC3 tableNodeEx true stC3).1).map
        (fun d => d.children.map DNode.name)) = some ["dt", "ix_dt", "ps_dbo_t_dt"] := by
  refine ⟨?_, ?_⟩ <;> rfl

/-! ## C6 counterexample -/

/-- C6 (counterexample): the parent table has indexes in its
ignore-extra-children set and declares no index children at all, yet the
alignment run deletes the live index ix_c (the DROP INDEX is executed and
the live index list is empty afterwards), because the data-type change on
the declared column routes through drop_associated_indexes regardless of
the parent's deletion gating. -/
theorem c6_counterexample_ignored_index_deleted :
    ignoreExtraChildrenType dTableC6 .indexes = true
    ∧ dGetChildren dTableC6 .indexes = Option.none
    ∧ ((alignEntity tableOps 2 dTableC6 tableNodeEx true stWithIx).2.2).contains
        (Event.exec (.dropIndex "ix_c")) = true
    ∧ (alignEntity tableOps 2 dTableC6 tableNodeEx true stWithIx).2.1.live.indexes = [] := by
  refine ⟨?_, ?_, ?_, ?_⟩ <;> rfl

/-! ## C8 -/

/-- C8: equality of a reflected node against a declared node of the same
type is, for every type without an equate_declared override, the
case-insensitive name match against the declared name or a truthy
old_name; for primary keys it is equality of the column tuples, and for
indexes equality of the column tuples and of the included-column sets —
with no reference to either object's name. -/
theorem c8_equality_rules :
    (∀ (t : EType) (rn : String) (ra : String → Val) (d : DNode),
        d.otype = t →
        t ≠ .primary_keys → t ≠ .indexes → t ≠ .partitions → t ≠ .users →
        (reflectedEq t rn ra d = true ↔
          ((pyLower rn) = (pyLower d.name) ∨
            (∃ o, d.oldName = some o ∧ o ≠ "" ∧ (pyLower rn) = (pyLower o)))))
    ∧ (∀ (rn : String) (ra : String → Val) (d : DNode),
        d.otype = .primary_keys →
        (reflectedEq .primary_keys rn ra d = true ↔
          Val.eq (ra "columns") (dAttr d "columns") = true))
    ∧ (∀ (rn : String) (ra : String → Val) (d : DNode),
        d.otype = .indexes →
        (reflectedEq .indexes rn ra d = true ↔
          (Val.eq (ra "columns") (dAttr d "columns") = true ∧
           Val.eq (ra "included_columns") (dAttr d "included_columns") = true))) := by
  refine ⟨?_, ?_, ?_⟩
  · intro t rn ra d ht hpk hix hpart husr
    subst ht
    cases hdo : d.oldName with
    | none =>
      cases h : d.otype <;>
        simp_all [reflectedEq, equateDeclared, equateDefault, hdo]
    | some o =>
      cases h : d.otype <;>
        simp_all [reflectedEq, equateDeclared, equateDefault, hdo, and_assoc]
  · intro rn ra d ht
    simp [reflectedEq, equateDeclared, ht.symm]
  · intro rn ra d ht
    simp [reflectedEq, equateDeclared, ht.symm]

/-- C8 witness: a live index named ix_old with columns (x, y) and no
included columns is equal to a declared index named differently with the
same columns, by the third rule. -/
theorem c8_witness :
    (DNode.mk .indexes "ix_xy" Option.none .noneI []
        [("columns", .strs ["x", "y"]), ("clustered", .bool false),
         ("compression", .str "NONE"), ("included_columns", Val.none),
         ("unique", .bool false)]).otype = .indexes
    ∧ (reflectedEq .indexes "ix_old"
        (fun a => if a == "columns" then .strs ["x", "y"] else Val.none)
        (DNode.mk .indexes "ix_xy" Option.none .noneI []
          [("columns", .strs ["x", "y"]), ("clustered", .bool false),
           ("compression", .str "NONE"), ("included_columns", Val.none),
           ("unique", .bool false)]) = true ↔
        (Val.eq ((fun a => if a == "columns" then .strs ["x", "y"] else Val.none) "columns")
            (dAttr (DNode.mk .indexes "ix_xy" Option.none .noneI []
              [("columns", .strs ["x", "y"]), ("clustered", .bool false),
               ("compression", .str "NONE"), ("included_columns", Val.none),
               ("unique", .bool false)]) "columns") = true ∧
         Val.eq ((fun a => if a == "columns" then .strs ["x", "y"] else Val.none) "included_columns")
            (dAttr (DNode.mk .indexes "ix_xy" Option.none .noneI []
              [("columns", .strs ["x", "y"]), ("clustered", .bool false),
               ("compression", .str "NONE"), ("included_columns", Val.none),
               ("unique", .bool false)]) "included_columns") = true))
    ∧ reflectedEq .indexes "ix_old"
        (fun a => if a == "columns" then .strs ["x", "y"] else Val.none)
        (DNode.mk .indexes "ix_xy" Option.none .noneI []
          [("columns", .strs ["x", "y"]), ("clustered", .bool false),
           ("compression", .str "NONE"), ("included_columns", Val.none),
           ("unique", .bool false)]) = true :=
  ⟨rfl,
   c8_equality_rules.2.2 "ix_old"
     (fun a => if a == "columns" then .strs ["x", "y"] else Val.none) _ rfl,
   rfl⟩

/-! ## C10 -/

/-- C10: the declared side's __eq__ delegates to the reflected side's
type-specific rule, so cross-tree equality is symmetric by
construction. -/
theorem c10_cross_tree_equality_symmetric :
    ∀ (d : DNode) (t : EType) (rn : String) (ra : String → Val),
      declaredEqReflected d t rn ra = reflectedEq t rn ra d :=
  fun _ _ _ _ => rfl

/-! ## C9 -/

/-- addChildrenFold never changes the node's own name. -/
theorem addChildrenFold_name :
    ∀ (cs : List DNode) (b b2 : DNode), addChildrenFold b cs = .ok b2 → b2.name = b.name := by
  intro cs
  induction cs with
  | nil =>
    intro b b2 h
    unfold addChildrenFold at h
    injection h with h
    rw [← h]
  | cons c cs ih =>
    intro b b2 h
    unfold addChildrenFold at h
    cases hac : dAddChild b c with
    | error e =>
      rw [hac] at h
      simp at h
    | ok b1 =>
      rw [hac] at h
      simp only at h
      have hb1 : b1.name = b.name := by
        unfold dAddChild at hac
        split at hac
        · injection hac with hac
          rw [← hac]
          rfl
        · simp at hac
      rw [ih b1 b2 h, hb1]

/-- Python slicing s[:128] is the identity on strings of length at most
128. -/
theorem strTake128_of_le {s : String} (h : s.length ≤ 128) : strTake128 s = s := by
  unfold strTake128
  rw [List.take_of_length_le h]

/-- C9: a declared node constructed with a non-null name stores the first
128 characters of the supplied name (so the supplied name itself whenever
its length is at most 128), and constructing with a null name fails with
DBError. -/
theorem c9_name_truncation :
    (∀ (t : EType) (s : String) (oldName : Option String) (ig : Ignore)
        (cs : List DNode) (kw : List (String × Val)) (nd : DNode),
        initDeclared t (some s) oldName ig cs kw = .ok nd →
        nd.name = strTake128 s ∧ (s.length ≤ 128 → nd.name = s))
    ∧ (∀ (t : EType) (oldName : Option String) (ig : Ignore) (cs : List DNode)
        (kw : List (String × Val)),
        initDeclared t Option.none oldName ig cs kw = .error .dbError) := by
  constructor
  · intro t s oldName ig cs kw nd h
    have hname : nd.name = strTake128 s := by
      have h : initDeclaredNamed t s oldName ig cs kw = .ok nd := h
      unfold initDeclaredNamed at h
      cases hf : addChildrenFold (DNode.mk t (strTake128 s) oldName ig [] []) cs with
      | error e =>
        rw [hf] at h
        simp at h
      | ok base =>
        rw [hf] at h
        simp only at h
        cases hp : popAttrs kw (validAttributes t) with
        | error e =>
          rw [hp] at h
          simp at h
        | ok coll =>
          rw [hp] at h
          simp only at h
          split at h
          · exact Except.noConfusion h
          · injection h with h
            rw [← h]
            have hb := addChildrenFold_name cs _ base hf
            simpa using hb
    exact ⟨hname, fun hle => by rw [hname, strTake128_of_le hle]⟩
  · intro t oldName ig cs kw
    rfl

/-- C9 witness: constructing a schema named dbo succeeds, stores the
truncated (here: unchanged) name, and the 128-character bound applies. -/
theorem c9_witness :
    initDeclared .schemas (some "dbo") Option.none .noneI [] [] =
      .ok (DNode.mk .schemas "dbo" Option.none .noneI [] [])
    ∧ (DNode.mk .schemas "dbo" Option.none .noneI [] []).name = strTake128 "dbo"
    ∧ "dbo".length ≤ 128
    ∧ (DNode.mk .schemas "dbo" Option.none .noneI [] []).name = "dbo"
    ∧ initDeclared .schemas Option.none Option.none .noneI [] [] = .error .dbError := by
  have h1 : initDeclared .schemas (some "dbo") Option.none .noneI [] [] =
      .ok (DNode.mk .schemas "dbo" Option.none .noneI [] []) := by rfl
  have h2 := c9_name_truncation.1 .schemas "dbo" Option.none .noneI [] [] _ h1
  exact ⟨h1, h2.1, by decide, h2.2 (by decide),
    c9_name_truncation.2 .schemas Option.none .noneI [] []⟩

/-! ## C4 -/

/-- C4: set_attribute with no registered setter for the (type, attribute)
pair logs and returns False with no statement executed and no state
change; with a registered setter and an approved confirmation it runs the
setter, commits, invalidates the cached attribute, re-reads it, and
raises DBNotAlteredAttributeError exactly when the re-read value differs
from the declared value (returning True otherwise). -/
theorem c4_set_attribute_contract :
    (∀ (σ : Type) (ops : Ops σ) (n : RNode) (d : DNode) (a : String) (s : St σ),
        ops.setAttrMethod n.otype a = Option.none →
        setAttribute ops n d a s = (.ok (false, n), s, []))
    ∧ (∀ (σ : Type) (ops : Ops σ) (n : RNode) (d : DNode) (a : String) (s : St σ)
        (m : RNode → DNode → M σ RNode) (n1 : RNode) (s1 : St σ) (ev1 : List Event)
        (v : Val) (n3 : RNode) (s3 : St σ) (ev3 : List Event),
        ops.setAttrMethod n.otype a = some m →
        s.confirms s.nAsked = true →
        m n d { s with nAsked := s.nAsked + 1 } = (.ok n1, s1, ev1) →
        getattrA ops (resetAttribute n1 a) a s1 = (.ok (v, n3), s3, ev3) →
        setAttribute ops n d a s =
          ((if Val.eq v (dAttr d a) then .ok (true, n3) else .error .dbNotAltered),
           s3, ev1 ++ Event.commit :: ev3)) := by
  constructor
  · intro σ ops n d a s hm
    unfold setAttribute
    rw [hm]
    rfl
  · intro σ ops n d a s m n1 s1 ev1 v n3 s3 ev3 hm hc hmeth hread
    unfold setAttribute
    rw [hm]
    cases hv : Val.eq v (dAttr d a) <;>
      simp [bindM_eq, pureM_eq, mBind, mPure, askConfirm, commitM, mThrow,
        hc, hmeth, hread, hv, List.append_assoc]

/-- C4 witness: the partition node has no setter for its column attribute
(False, no events, state unchanged); the column node's nullable setter is
registered, the confirmation is approved, the change is applied and
committed, and the re-read value equals the declared one, so the call
returns True without raising. -/
theorem c4_witness :
    tableOps.setAttrMethod partNodeEx.otype "column" = Option.none
    ∧ setAttribute tableOps partNodeEx dPartDt "column" stPlain = (.ok (false, partNodeEx), stPlain, [])
    ∧ tableOps.setAttrMethod colNodeEx.otype "nullable" = some alterColumnM
    ∧ stPlain.confirms stPlain.nAsked = true
    ∧ alterColumnM colNodeEx dColNullable { stPlain with nAsked := stPlain.nAsked + 1 } =
        (.ok colNodeEx, stNullable1, [Event.exec (.alterColumn "c"), Event.commit])
    ∧ getattrA tableOps (resetAttribute colNodeEx "nullable") "nullable" stNullable1 =
        (.ok (.bool true, colNodeCached), stNullable1, [])
    ∧ setAttribute tableOps colNodeEx dColNullable "nullable" stPlain =
        ((if Val.eq (.bool true) (dAttr dColNullable "nullable") then .ok (true, colNodeCached)
          else .error .dbNotAltered),
         stNullable1, [Event.exec (.alterColumn "c"), Event.commit] ++ Event.commit :: []) := by
  refine ⟨by rfl, ?_, by rfl, by rfl, by rfl, by rfl, ?_⟩
  · exact c4_set_attribute_contract.1 LiveTable tableOps partNodeEx dPartDt "column" stPlain (by rfl)
  · exact c4_set_attribute_contract.2 LiveTable tableOps colNodeEx dColNullable "nullable" stPlain
      alterColumnM colNodeEx stNullable1 [Event.exec (.alterColumn "c"), Event.commit]
      (.bool true) colNodeCached stNullable1 []
      (by rfl) (by rfl) (by rfl) (by rfl)

/-! ## C5 -/

/-- C5: get_or_create first attempts the type-specific match and returns
the counterpart on success with nothing created; on a no-match
(DBObjectDoesntExistError) with a type that does not support creation it
returns no counterpart instead of failing; with a creatable type it
creates and re-matches, and any failure of the re-match after a
successful creation propagates; and create itself verifies existence
after the creation statement, failing with DBError when the declared name
does not resolve. -/
theorem c5_get_or_create_contract :
    (∀ (σ : Type) (ops : Ops σ) (parent : RNode) (t : EType) (d : DNode) (s : St σ)
        (node : RNode) (s1 : St σ) (ev : List Event),
        fromDeclared ops parent t d s = (.ok node, s1, ev) →
        getOrCreate ops parent t d s = (.ok (some node, d), s1, ev))
    ∧ (∀ (σ : Type) (ops : Ops σ) (parent : RNode) (t : EType) (d : DNode) (s : St σ)
        (s1 : St σ) (ev : List Event),
        fromDeclared ops parent t d s = (.error .dbObjectDoesntExist, s1, ev) →
        canCreateT t = false →
        getOrCreate ops parent t d s = (.ok (Option.none, d), s1, ev))
    ∧ (∀ (σ : Type) (ops : Ops σ) (parent : RNode) (t : EType) (d : DNode) (s : St σ)
        (s1 : St σ) (ev1 : List Event) (d1 : DNode) (s2 : St σ) (ev2 : List Event)
        (e : Err) (s3 : St σ) (ev3 : List Event),
        fromDeclared ops parent t d s = (.error .dbObjectDoesntExist, s1, ev1) →
        canCreateT t = true →
        createEntity ops parent t d s1 = (.ok d1, s2, ev2) →
        fromDeclared ops parent t d1 s2 = (.error e, s3, ev3) →
        getOrCreate ops parent t d s = (.error e, s3, ev1 ++ ev2 ++ ev3))
    ∧ (∀ (σ : Type) (ops : Ops σ) (parent : RNode) (t : EType) (d : DNode) (s : St σ)
        (s1 : St σ) (ev1 : List Event) (d1 : DNode) (s2 : St σ) (ev2 : List Event)
        (node : RNode) (s3 : St σ) (ev3 : List Event),
        fromDeclared ops parent t d s = (.error .dbObjectDoesntExist, s1, ev1) →
        canCreateT t = true →
        createEntity ops parent t d s1 = (.ok d1, s2, ev2) →
        fromDeclared ops parent t d1 s2 = (.ok node, s3, ev3) →
        getOrCreate ops parent t d s = (.ok (some node, d1), s3, ev1 ++ ev2 ++ ev3))
    ∧ (∀ (σ : Type) (ops : Ops σ) (parent : RNode) (t : EType) (d : DNode) (s : St σ)
        (d1 : DNode) (s1 : St σ) (ev1 : List Event) (ex : Bool) (s2 : St σ) (ev2 : List Event),
        ops.createEx parent t d s = (.ok d1, s1, ev1) →
        ops.nameExists parent t d1.name s1 = (.ok ex, s2, ev2) →
        createEntity ops parent t d s =
          ((if ex then .ok d1 else .error .dbError), s2, ev1 ++ Event.commit :: ev2)) := by
  refine ⟨?_, ?_, ?_, ?_, ?_⟩
  · intro σ ops parent t d s node s1 ev h1
    unfold getOrCreate
    simp [bindM_eq, pureM_eq, mBind, mPure, mAttempt, mThrow, h1]
  · intro σ ops parent t d s s1 ev h1 hcc
    unfold getOrCreate
    simp [bindM_eq, pureM_eq, mBind, mPure, mAttempt, mThrow, h1, hcc]
  · intro σ ops parent t d s s1 ev1 d1 s2 ev2 e s3 ev3 h1 hcc h2 h3
    unfold getOrCreate
    simp [bindM_eq, pureM_eq, mBind, mPure, mAttempt, mThrow, h1, hcc, h2, h3,
      List.append_assoc]
  · intro σ ops parent t d s s1 ev1 d1 s2 ev2 node s3 ev3 h1 hcc h2 h3
    unfold getOrCreate
    simp [bindM_eq, pureM_eq, mBind, mPure, mAttempt, mThrow, h1, hcc, h2, h3,
      List.append_assoc]
  · intro σ ops parent t d s d1 s1 ev1 ex s2 ev2 hce hne
    unfold createEntity
    cases hx : ex <;>
      simp [bindM_eq, pureM_eq, mBind, mPure, mThrow, commitM, hce, hne, hx,
        List.append_assoc]

/-- C5 witness: (a) an existing column is matched with nothing created;
(b) a declared login with no live counterpart yields None because logins
cannot be created; (c) a declared index storing an uppercase column name
is created successfully and then fails to re-match (the live read
lowercases), and the failure propagates; (d) a missing column is created,
verified and re-matched; (e) create runs the statement, commits and
verifies the name. -/
theorem c5_witness :
    fromDeclared tableOps tableNodeEx .columns dColInt stPlain = (.ok colNodeEx, stPlain, [])
    ∧ getOrCreate tableOps tableNodeEx .columns dColInt stPlain =
        (.ok (some colNodeEx, dColInt), stPlain, [])
    ∧ fromDeclared serverOps srvNodeEx .logins dLoginSvc stSrv =
        (.error .dbObjectDoesntExist, stSrv, [])
    ∧ canCreateT .logins = false
    ∧ getOrCreate serverOps srvNodeEx .logins dLoginSvc stSrv =
        (.ok (Option.none, dLoginSvc), stSrv, [])
    ∧ fromDeclared tableOps tableNodeEx .indexes dIxUpper stPlain =
        (.error .dbObjectDoesntExist, stPlain, [])
    ∧ createEntity tableOps tableNodeEx .indexes dIxUpper stPlain =
        (.ok dIxUpper, stUpperIx, [Event.exec (.createIndexS "ix_u"), Event.commit])
    ∧ fromDeclared tableOps tableNodeEx .indexes dIxUpper stUpperIx =
        (.error .dbObjectDoesntExist, stUpperIx, [])
    ∧ getOrCreate tableOps tableNodeEx .indexes dIxUpper stPlain =
        (.error .dbObjectDoesntExist, stUpperIx,
         [] ++ [Event.exec (.createIndexS "ix_u"), Event.commit] ++ [])
    ∧ fromDeclared tableOps tableNodeEx .columns dColVarchar stNoCols =
        (.error .dbObjectDoesntExist, stNoCols, [])
    ∧ createEntity tableOps tableNodeEx .columns dColVarchar stNoCols =
        (.ok dColVarchar, stColCreated, [Event.exec (.addColumn "c"), Event.commit])
    ∧ fromDeclared tableOps tableNodeEx .columns dColVarchar stColCreated =
        (.ok colNodeEx, stColCreated, [])
    ∧ getOrCreate tableOps tableNodeEx .columns dColVarchar stNoCols =
        (.ok (some colNodeEx, dColVarchar), stColCreated,
         [] ++ [Event.exec (.addColumn "c"), Event.commit] ++ [])
    ∧ tableOps.createEx tableNodeEx .columns dColVarchar stNoCols =
        (.ok dColVarchar, stColCreated, [Event.exec (.addColumn "c")])
    ∧ tableOps.nameExists tableNodeEx .columns dColVarchar.name stColCreated =
        (.ok true, stColCreated, [])
    ∧ createEntity tableOps tableNodeEx .columns dColVarchar stNoCols =
        ((if true then .ok dColVarchar else .error .dbError), stColCreated,
         [Event.exec (.addColumn "c")] ++ Event.commit :: []) := by
  refine ⟨by rfl, ?_, by rfl, by rfl, ?_, by rfl, by rfl, by rfl, ?_, by rfl, by rfl, by rfl,
    ?_, by rfl, by rfl, ?_⟩
  · exact c5_get_or_create_contract.1 LiveTable tableOps tableNodeEx .columns dColInt stPlain
      colNodeEx stPlain [] (by rfl)
  · exact c5_get_or_create_contract.2.1 LiveServer serverOps srvNodeEx .logins dLoginSvc stSrv
      stSrv [] (by rfl) (by rfl)
  · exact c5_get_or_create_contract.2.2.1 LiveTable tableOps tableNodeEx .indexes dIxUpper
      stPlain stPlain [] dIxUpper stUpperIx [Event.exec (.createIndexS "ix_u"), Event.commit]
      .dbObjectDoesntExist stUpperIx [] (by rfl) (by rfl) (by rfl) (by rfl)
  · exact c5_get_or_create_contract.2.2.2.1 LiveTable tableOps tableNodeEx .columns dColVarchar
      stNoCols stNoCols [] dColVarchar stColCreated [Event.exec (.addColumn "c"), Event.commit]
      colNodeEx stColCreated [] (by rfl) (by rfl) (by rfl) (by rfl)
  · exact c5_get_or_create_contract.2.2.2.2 LiveTable tableOps tableNodeEx .columns dColVarchar
      stNoCols dColVarchar stColCreated [Event.exec (.addColumn "c")] true stColCreated []
      (by rfl) (by rfl)

/-! ## C7 -/

/-- C7: within one node pair the whole trace is the attribute-convergence
trace followed by the child-convergence trace (so every attribute
comparison and set completes before any child alignment begins, and an
attribute-phase failure prevents the child phase entirely); within one
child type the trace is live-listing, then the deletion sweep of
unmatched live children, then the declared-children processing (so all
sweep deletions precede every rename, creation and recursive alignment);
and the declared children are processed head-first in declared list
order, their traces concatenated in that order. -/
theorem c7_ordering :
    (∀ (σ : Type) (ops : Ops σ) (fuel : Nat) (d : DNode) (r : RNode) (s : St σ)
        (r1 : RNode) (s1 : St σ) (evA : List Event)
        (resC : Except Err DNode) (s2 : St σ) (evC : List Event),
        d.otype = r.otype →
        attrPhase ops d r s = (.ok r1, s1, evA) →
        childPhase ops (fun dc rc => alignEntity ops fuel dc rc true) d r1 s1 = (resC, s2, evC) →
        alignEntity ops (fuel + 1) d r true s =
          ((match resC with | .ok d1 => .ok (d1, r1) | .error e => .error e), s2, evA ++ evC))
    ∧ (∀ (σ : Type) (ops : Ops σ) (f : DNode → RNode → M σ (DNode × RNode))
        (d : DNode) (r : RNode) (t : EType) (s : St σ) (dcs : List DNode)
        (ecs : List RNode) (s1 : St σ) (evL : List Event) (s2 : St σ) (evD : List Event)
        (resP : Except Err (List DNode)) (s3 : St σ) (evP : List Event),
        dGetChildren d t = some dcs →
        ignoreExtraChildrenType d t = false →
        allForParent ops r t s = (.ok ecs, s1, evL) →
        sweepLoop ops dcs ecs s1 = (.ok (), s2, evD) →
        processLoop ops f r t dcs s2 = (resP, s3, evP) →
        alignChildType ops f d r t s =
          ((match resP with | .ok l => .ok (dSetChildren d t l) | .error e => .error e),
           s3, evL ++ evD ++ evP))
    ∧ (∀ (σ : Type) (ops : Ops σ) (f : DNode → RNode → M σ (DNode × RNode))
        (r : RNode) (t : EType) (dc : DNode) (rest : List DNode) (s : St σ)
        (dc2 : DNode) (s1 : St σ) (ev1 : List Event)
        (resR : Except Err (List DNode)) (s2 : St σ) (ev2 : List Event),
        processChildOne ops f r t dc s = (.ok dc2, s1, ev1) →
        processLoop ops f r t rest s1 = (resR, s2, ev2) →
        processLoop ops f r t (dc :: rest) s =
          ((match resR with | .ok l => .ok (dc2 :: l) | .error e => .error e),
           s2, ev1 ++ ev2)) := by
  refine ⟨?_, ?_, ?_⟩
  · intro σ ops fuel d r s r1 s1 evA resC s2 evC hot hA hC
    cases resC <;>
      simp [alignEntity, bindM_eq, pureM_eq, mBind, mPure, mThrow, hot, hA, hC,
        List.append_assoc]
  · intro σ ops f d r t s dcs ecs s1 evL s2 evD resP s3 evP hdc hig hL hS hP
    unfold alignChildType
    rw [hdc]
    cases resP <;>
      simp [sweepPhase, bindM_eq, pureM_eq, mBind, mPure, hig, hL, hS, hP,
        List.append_assoc]
  · intro σ ops f r t dc rest s dc2 s1 ev1 resR s2 ev2 h1 h2
    cases resR <;>
      simp [processLoop, bindM_eq, pureM_eq, mBind, mPure, h1, h2, List.append_assoc]

/-- C7 witness: the three decompositions instantiated on the aligned
table with one declared column matching the live state. -/
theorem c7_witness :
    dTableC7.otype = tableNodeEx.otype
    ∧ attrPhase tableOps dTableC7 tableNodeEx stPlain = (.ok tableNodeEx, stPlain, [])
    ∧ childPhase tableOps (fun dc rc => alignEntity tableOps 1 dc rc true) dTableC7 tableNodeEx stPlain =
        (.ok dTableC7, stPlain, [])
    ∧ alignEntity tableOps (1 + 1) dTableC7 tableNodeEx true stPlain =
        ((match (Except.ok dTableC7 : Except Err DNode) with
          | .ok d1 => .ok (d1, tableNodeEx)
          | .error e => .error e), stPlain, ([] : List Event) ++ [])
    ∧ dGetChildren dTableC7 .columns = some [dColInt]
    ∧ ignoreExtraChildrenType dTableC7 .columns = false
    ∧ allForParent tableOps tableNodeEx .columns stPlain = (.ok [colNodeEx], stPlain, [])
    ∧ sweepLoop tableOps [dColInt] [colNodeEx] stPlain = (.ok (), stPlain, [])
    ∧ processLoop tableOps (fun dc rc => alignEntity tableOps 1 dc rc true) tableNodeEx .columns
        [dColInt] stPlain = (.ok [dColInt], stPlain, [])
    ∧ alignChildType tableOps (fun dc rc => alignEntity tableOps 1 dc rc true) dTableC7
        tableNodeEx .columns stPlain =
        ((match (Except.ok [dColInt] : Except Err (List DNode)) with
          | .ok l => .ok (dSetChildren dTableC7 .columns l)
          | .error e => .error e), stPlain, ([] : List Event) ++ [] ++ [])
    ∧ processChildOne tableOps (fun dc rc => alignEntity tableOps 1 dc rc true) tableNodeEx
        .columns dColInt stPlain = (.ok dColInt, stPlain, [])
    ∧ processLoop tableOps (fun dc rc => alignEntity tableOps 1 dc rc true) tableNodeEx .columns
        [] stPlain = (.ok [], stPlain, [])
    ∧ processLoop tableOps (fun dc rc => alignEntity tableOps 1 dc rc true) tableNodeEx .columns
        (dColInt :: []) stPlain =
        ((match (Except.ok [] : Except Err (List DNode)) with
          | .ok l => .ok (dColInt :: l)
          | .error e => .error e), stPlain, ([] : List Event) ++ []) := by
  refine ⟨by rfl, by rfl, by rfl, ?_, by rfl, by rfl, by rfl, by rfl, by rfl, ?_, by rfl,
    by rfl, ?_⟩
  · exact c7_ordering.1 LiveTable tableOps 1 dTableC7 tableNodeEx stPlain tableNodeEx stPlain []
      (.ok dTableC7) stPlain [] (by rfl) (by rfl) (by rfl)
  · exact c7_ordering.2.1 LiveTable tableOps (fun dc rc => alignEntity tableOps 1 dc rc true)
      dTableC7 tableNodeEx .columns stPlain [dColInt] [colNodeEx] stPlain [] stPlain []
      (.ok [dColInt]) stPlain [] (by rfl) (by rfl) (by rfl) (by rfl) (by rfl)
  · exact c7_ordering.2.2 LiveTable tableOps (fun dc rc => alignEntity tableOps 1 dc rc true)
      tableNodeEx .columns dColInt [] stPlain dColInt stPlain [] (.ok []) stPlain []
      (by rfl) (by rfl)

/-! ## C6 amended -/

/-- C6 (amended): the undeclared-children removal step itself respects the
gating: when the declared parent has no children of the type, the whole
child-type alignment is a no-op (nothing listed, nothing deleted, no
event); when the type is in the parent's ignore-extra-children set, the
live children are neither listed nor swept and the run goes straight to
processing the declared children.  (Deletions of live children of such
types can still be issued by column attribute remediation during the
recursive alignment, as the counterexample shows.) -/
theorem c6_amended_sweep_gating :
    (∀ (σ : Type) (ops : Ops σ) (f : DNode → RNode → M σ (DNode × RNode))
        (d : DNode) (r : RNode) (t : EType) (s : St σ),
        dGetChildren d t = Option.none →
        alignChildType ops f d r t s = (.ok d, s, []))
    ∧ (∀ (σ : Type) (ops : Ops σ) (f : DNode → RNode → M σ (DNode × RNode))
        (d : DNode) (r : RNode) (t : EType) (s : St σ) (dcs : List DNode),
        dGetChildren d t = some dcs →
        ignoreExtraChildrenType d t = true →
        alignChildType ops f d r t s =
          ((match (processLoop ops f r t dcs s).1 with
            | .ok l => .ok (dSetChildren d t l)
            | .error e => .error e),
           (processLoop ops f r t dcs s).2.1,
           (processLoop ops f r t dcs s).2.2)) := by
  constructor
  · intro σ ops f d r t s hdc
    unfold alignChildType
    rw [hdc]
    rfl
  · intro σ ops f d r t s dcs hdc hig
    unfold alignChildType
    rw [hdc]
    rcases hP : processLoop ops f r t dcs s with ⟨resP, s2, evP⟩
    cases resP <;>
      simp [bindM_eq, pureM_eq, mBind, mPure, hig, hP]

/-- C6 amended witness: with no declared indexes the index alignment of
the C6 table is a no-op; with columns ignored and one declared column the
column alignment skips the sweep and equals the processing phase
alone. -/
theorem c6_amended_witness :
    dGetChildren dTableC6 .indexes = Option.none
    ∧ alignChildType tableOps (fun dc rc => alignEntity tableOps 1 dc rc true) dTableC6
        tableNodeEx .indexes stWithIx = (.ok dTableC6, stWithIx, [])
    ∧ dGetChildren dTableIgnoreCols .columns = some [dColInt]
    ∧ ignoreExtraChildrenType dTableIgnoreCols .columns = true
    ∧ alignChildType tableOps (fun dc rc => alignEntity tableOps 1 dc rc true) dTableIgnoreCols
        tableNodeEx .columns stPlain =
        ((match (processLoop tableOps (fun dc rc => alignEntity tableOps 1 dc rc true)
              tableNodeEx .columns [dColInt] stPlain).1 with
          | .ok l => .ok (dSetChildren dTableIgnoreCols .columns l)
          | .error e => .error e),
         (processLoop tableOps (fun dc rc => alignEntity tableOps 1 dc rc true)
            tableNodeEx .columns [dColInt] stPlain).2.1,
         (processLoop tableOps (fun dc rc => alignEntity tableOps 1 dc rc true)
            tableNodeEx .columns [dColInt] stPlain).2.2) := by
  refine ⟨by rfl, ?_, by rfl, by rfl, ?_⟩
  · exact c6_amended_sweep_gating.1 LiveTable tableOps
      (fun dc rc => alignEntity tableOps 1 dc rc true) dTableC6 tableNodeEx .indexes stWithIx
      (by rfl)
  · exact c6_amended_sweep_gating.2 LiveTable tableOps
      (fun dc rc => alignEntity tableOps 1 dc rc true) dTableIgnoreCols tableNodeEx .columns
      stPlain [dColInt] (by rfl) (by rfl)

/-! ## C3 amended: the declared-tree frame property -/

mutual

theorem dSamePartB_refl : ∀ d : DNode, dSamePartB d d = true
  | .mk t n o i cs a => by
    unfold dSamePartB
    simp [dSamePartList_refl cs]

theorem dSamePartList_refl : ∀ cs : List DNode, dSamePartList cs cs = true
  | [] => by
    unfold dSamePartList
    rfl
  | c :: cs => by
    unfold dSamePartList
    simp [dSamePartB_refl c, dSamePartList_refl cs]

end

mutual

theorem dSamePartB_trans : ∀ a b c : DNode,
    dSamePartB a b = true → dSamePartB b c = true → dSamePartB a c = true
  | .mk t1 n1 o1 i1 cs1 a1, .mk t2 n2 o2 i2 cs2 a2, .mk t3 n3 o3 i3 cs3 a3 => by
    unfold dSamePartB
    simp only [Bool.and_eq_true, Bool.or_eq_true, decide_eq_true_eq]
    rintro ⟨⟨⟨⟨⟨ht, ho⟩, hi⟩, ha⟩, hn⟩, hl⟩ ⟨⟨⟨⟨⟨ht2, ho2⟩, hi2⟩, ha2⟩, hn2⟩, hl2⟩
    subst ht
    subst ho
    subst hi
    subst ha
    refine ⟨⟨⟨⟨⟨ht2, ho2⟩, hi2⟩, ha2⟩, ?_⟩, dSamePartList_trans cs1 cs2 cs3 hl hl2⟩
    cases hn with
    | inl hp => exact Or.inl hp
    | inr he =>
      cases hn2 with
      | inl hp => exact Or.inl hp
      | inr he2 => exact Or.inr (he.trans he2)

theorem dSamePartList_trans : ∀ xs ys zs : List DNode,
    dSamePartList xs ys = true → dSamePartList ys zs = true → dSamePartList xs zs = true
  | [], ys, zs => by
    cases ys with
    | nil =>
      cases zs with
      | nil => intro _ _; rfl
      | cons z zs =>
        intro _ h2
        simp [dSamePartList] at h2
    | cons y ys =>
      intro h1 _
      simp [dSamePartList] at h1
  | x :: xs, ys, zs => by
    cases ys with
    | nil =>
      intro h1 _
      simp [dSamePartList] at h1
    | cons y ys =>
      cases zs with
      | nil =>
        intro _ h2
        simp [dSamePartList] at h2
      | cons z zs =>
        intro h1 h2
        simp only [dSamePartList, Bool.and_eq_true] at h1 h2 ⊢
        exact ⟨dSamePartB_trans x y z h1.1 h2.1, dSamePartList_trans xs ys zs h1.2 h2.2⟩

end

/-- Writing back a list pointwise related to the filtered sublist keeps
the whole children list pointwise related. -/
theorem dSamePartList_replaceTyped (t : EType) :
    ∀ (cs news : List DNode),
      dSamePartList (cs.filter (fun c => c.otype == t)) news = true →
      dSamePartList cs (replaceTyped t news cs) = true := by
  intro cs
  induction cs with
  | nil =>
    intro news _
    rfl
  | cons c cs ih =>
    intro news h
    rw [List.filter_cons] at h
    by_cases hct : (c.otype == t) = true
    · rw [if_pos hct] at h
      cases news with
      | nil => simp [dSamePartList] at h
      | cons nw ns =>
        simp only [dSamePartList, Bool.and_eq_true] at h
        unfold replaceTyped
        rw [if_pos hct]
        simp only [dSamePartList, Bool.and_eq_true]
        exact ⟨h.1, ih ns h.2⟩
    · rw [if_neg hct] at h
      unfold replaceTyped
      rw [if_neg hct]
      simp only [dSamePartList, Bool.and_eq_true]
      exact ⟨dSamePartB_refl c, ih news h⟩

/-- dSetChildren with a pointwise-related replacement list relates to the
original node. -/
theorem dSamePartB_setChildren (d : DNode) (t : EType) (news : List DNode)
    (h : dSamePartList (d.children.filter (fun c => c.otype == t)) news = true) :
    dSamePartB d (dSetChildren d t news) = true := by
  cases d with
  | mk t0 n o i cs a =>
    unfold dSetChildren
    unfold dSamePartB
    simp only [DNode.otype, DNode.name, DNode.oldName, DNode.ignore, DNode.children,
      DNode.attrs] at h ⊢
    simp [dSamePartList_replaceTyped t cs news h]

/-- create threads the declared object through unchanged apart from
whatever _create_ex did to it. -/
theorem createEntity_preserves {σ : Type} {ops : Ops σ} (hops : CreatePreserves ops)
    {parent : RNode} {t : EType} {d : DNode} {s : St σ} {d1 : DNode} {s1 : St σ}
    {ev : List Event} (hot : d.otype = t)
    (h : createEntity ops parent t d s = (.ok d1, s1, ev)) : dSamePartB d d1 = true := by
  unfold createEntity at h
  simp only [bindM_eq, pureM_eq] at h
  obtain ⟨dA, sA, e1, e2, hce, hk, _⟩ := mBind_ok_inv h
  obtain ⟨_, sB, e3, e4, _, hk2, _⟩ := mBind_ok_inv hk
  obtain ⟨ex, sC, e5, e6, _, hk3, _⟩ := mBind_ok_inv hk2
  cases hex : ex with
  | false =>
    rw [hex] at hk3
    simp [mThrow] at hk3
  | true =>
    rw [hex] at hk3
    simp only [Bool.not_true, Bool.false_eq_true, if_false, mPure, Prod.mk.injEq,
      Except.ok.injEq] at hk3
    obtain ⟨hda, _, _⟩ := hk3
    rw [← hda]
    exact hops parent t d s dA sA e1 hot hce

/-- get_or_create threads the declared object through unchanged apart
from whatever a performed creation did to it. -/
theorem getOrCreate_preserves {σ : Type} {ops : Ops σ} (hops : CreatePreserves ops)
    {parent : RNode} {t : EType} {d : DNode} {s : St σ} {rOpt : Option RNode}
    {d1 : DNode} {s1 : St σ} {ev : List Event} (hot : d.otype = t)
    (h : getOrCreate ops parent t d s = (.ok (rOpt, d1), s1, ev)) :
    dSamePartB d d1 = true := by
  unfold getOrCreate at h
  simp only [bindM_eq, pureM_eq] at h
  obtain ⟨r, sA, e1, e2, _, hk, _⟩ := mBind_ok_inv h
  cases r with
  | ok node =>
    simp only [mPure, Prod.mk.injEq, Except.ok.injEq, Option.some.injEq] at hk
    obtain ⟨⟨_, hd⟩, _, _⟩ := hk
    rw [← hd]
    exact dSamePartB_refl d
  | error e =>
    cases hee : (e == Err.dbObjectDoesntExist) with
    | false =>
      simp [hee, mThrow] at hk
    | true =>
      cases hcc : canCreateT t with
      | false =>
        simp only [hee, hcc, if_true, Bool.false_eq_true, if_false, mPure, Prod.mk.injEq,
          Except.ok.injEq] at hk
        obtain ⟨⟨_, hd⟩, _, _⟩ := hk
        rw [← hd]
        exact dSamePartB_refl d
      | true =>
        simp only [hee, hcc, if_true] at hk
        obtain ⟨dA, sB, e3, e4, hcr, hk2, _⟩ := mBind_ok_inv hk
        obtain ⟨node, sC, e5, e6, _, hk3, _⟩ := mBind_ok_inv hk2
        simp only [mPure, Prod.mk.injEq, Except.ok.injEq, Option.some.injEq] at hk3
        obtain ⟨⟨_, hd⟩, _, _⟩ := hk3
        rw [← hd]
        exact createEntity_preserves hops hot hcr

/-- Processing one declared child changes it at most the way creation
and the recursive alignment do. -/
theorem processChildOne_preserves {σ : Type} {ops : Ops σ}
    {f : DNode → RNode → M σ (DNode × RNode)} (hops : CreatePreserves ops)
    (hf : AlignRecPreserves f) {rParent : RNode} {t : EType} {dc : DNode} {s : St σ}
    {dc2 : DNode} {s1 : St σ} {ev : List Event} (hot : dc.otype = t)
    (h : processChildOne ops f rParent t dc s = (.ok dc2, s1, ev)) :
    dSamePartB dc dc2 = true := by
  unfold processChildOne at h
  simp only [bindM_eq, pureM_eq] at h
  obtain ⟨_, sA, e1, e2, _, hk, _⟩ := mBind_ok_inv h
  obtain ⟨p, sB, e3, e4, hgc, hk2, _⟩ := mBind_ok_inv hk
  rcases p with ⟨rOpt, dc1⟩
  have hrel1 : dSamePartB dc dc1 = true := getOrCreate_preserves hops hot hgc
  cases rOpt with
  | none =>
    simp only [mPure, Prod.mk.injEq, Except.ok.injEq] at hk2
    obtain ⟨hd, _, _⟩ := hk2
    rw [← hd]
    exact hrel1
  | some robj =>
    simp only at hk2
    obtain ⟨q, sC, e5, e6, hal, hk3, _⟩ := mBind_ok_inv hk2
    rcases q with ⟨dc2x, rx⟩
    simp only [mPure, Prod.mk.injEq, Except.ok.injEq] at hk3
    obtain ⟨hd, _, _⟩ := hk3
    rw [← hd]
    exact dSamePartB_trans dc dc1 dc2x hrel1 (hf dc1 robj sB dc2x rx sC e5 hal)

/-- The declared-children loop relates its input and output lists
pointwise. -/
theorem processLoop_preserves {σ : Type} {ops : Ops σ}
    {f : DNode → RNode → M σ (DNode × RNode)} (hops : CreatePreserves ops)
    (hf : AlignRecPreserves f) {rParent : RNode} {t : EType} :
    ∀ (dcs : List DNode) (s : St σ) (l : List DNode) (s1 : St σ) (ev : List Event),
      (∀ dc ∈ dcs, dc.otype = t) →
      processLoop ops f rParent t dcs s = (.ok l, s1, ev) →
      dSamePartList dcs l = true := by
  intro dcs
  induction dcs with
  | nil =>
    intro s l s1 ev _ h
    unfold processLoop at h
    simp only [mPure, Prod.mk.injEq, Except.ok.injEq] at h
    obtain ⟨hl, _, _⟩ := h
    rw [← hl]
    rfl
  | cons dc rest ih =>
    intro s l s1 ev hall h
    unfold processLoop at h
    simp only [bindM_eq, pureM_eq] at h
    obtain ⟨dc2, sA, e1, e2, h1, hk, _⟩ := mBind_ok_inv h
    obtain ⟨rest2, sB, e3, e4, h2, hk2, _⟩ := mBind_ok_inv hk
    simp only [mPure, Prod.mk.injEq, Except.ok.injEq] at hk2
    obtain ⟨hl, _, _⟩ := hk2
    rw [← hl]
    unfold dSamePartList
    have hrel := processChildOne_preserves hops hf (hall dc (by simp)) h1
    have hrest := ih sA rest2 sB e3 (fun x hx => hall x (by simp [hx])) h2
    simp [hrel, hrest]

/-- Aligning the children of one type rewrites the parent's children list
only pointwise, up to partition names. -/
theorem alignChildType_preserves {σ : Type} {ops : Ops σ}
    {f : DNode → RNode → M σ (DNode × RNode)} (hops : CreatePreserves ops)
    (hf : AlignRecPreserves f) {d : DNode} {r : RNode} {t : EType} {s : St σ}
    {dOut : DNode} {s1 : St σ} {ev : List Event}
    (h : alignChildType ops f d r t s = (.ok dOut, s1, ev)) :
    dSamePartB d dOut = true := by
  unfold alignChildType at h
  cases hdc : dGetChildren d t with
  | none =>
    rw [hdc] at h
    simp only [mPure, Prod.mk.injEq, Except.ok.injEq] at h
    obtain ⟨hd, _, _⟩ := h
    rw [← hd]
    exact dSamePartB_refl d
  | some dcs =>
    rw [hdc] at h
    simp only [bindM_eq, pureM_eq] at h
    have hdcs : dcs = d.children.filter (fun c => c.otype == t) := by
      unfold dGetChildren at hdc
      cases hfil : d.children.filter (fun c => c.otype == t) with
      | nil =>
        rw [hfil] at hdc
        simp at hdc
      | cons c cs =>
        rw [hfil] at hdc
        simp only [Option.some.injEq] at hdc
        rw [← hdc]
    have htail : ∀ (sA : St σ) (dcs2 : List DNode) (sB : St σ) (e3 : List Event),
        processLoop ops f r t dcs sA = (.ok dcs2, sB, e3) →
        dSamePartB d (dSetChildren d t dcs2) = true := by
      intro sA dcs2 sB e3 hp
      have hall : ∀ dc ∈ dcs, dc.otype = t := by
        rw [hdcs]
        intro x hx
        have hx2 := (List.mem_filter.mp hx).2
        simpa using hx2
      have hlist := processLoop_preserves hops hf dcs sA dcs2 sB e3 hall hp
      refine dSamePartB_setChildren d t dcs2 ?_
      rw [← hdcs]
      exact hlist
    cases hig : (!ignoreExtraChildrenType d t) with
    | true =>
      simp only [hig, if_true] at h
      obtain ⟨_, sA, e1, e2, _, hk, _⟩ := mBind_ok_inv h
      obtain ⟨dcs2, sB, e3, e4, hp, hk2, _⟩ := mBind_ok_inv hk
      simp only [mPure, Prod.mk.injEq, Except.ok.injEq] at hk2
      obtain ⟨hd, _, _⟩ := hk2
      rw [← hd]
      exact htail sA dcs2 sB e3 hp
    | false =>
      simp only [hig, Bool.false_eq_true, if_false] at h
      obtain ⟨_, sA, e1, e2, _, hk, _⟩ := mBind_ok_inv h
      obtain ⟨dcs2, sB, e3, e4, hp, hk2, _⟩ := mBind_ok_inv hk
      simp only [mPure, Prod.mk.injEq, Except.ok.injEq] at hk2
      obtain ⟨hd, _, _⟩ := hk2
      rw [← hd]
      exact htail sA dcs2 sB e3 hp

/-- The loop over child types chains the per-type frame property. -/
theorem childTypeLoop_preserves {σ : Type} {ops : Ops σ}
    {f : DNode → RNode → M σ (DNode × RNode)} (hops : CreatePreserves ops)
    (hf : AlignRecPreserves f) {r : RNode} :
    ∀ (ts : List EType) (d : DNode) (s : St σ) (dOut : DNode) (s1 : St σ) (ev : List Event),
      childTypeLoop ops f r d ts s = (.ok dOut, s1, ev) →
      dSamePartB d dOut = true := by
  intro ts
  induction ts with
  | nil =>
    intro d s dOut s1 ev h
    unfold childTypeLoop at h
    simp only [mPure, Prod.mk.injEq, Except.ok.injEq] at h
    obtain ⟨hd, _, _⟩ := h
    rw [← hd]
    exact dSamePartB_refl d
  | cons t ts ih =>
    intro d s dOut s1 ev h
    unfold childTypeLoop at h
    simp only [bindM_eq, pureM_eq] at h
    obtain ⟨d1, sA, e1, e2, h1, hk, _⟩ := mBind_ok_inv h
    exact dSamePartB_trans d d1 dOut (alignChildType_preserves hops hf h1)
      (ih d1 sA dOut s1 e2 hk)

/-- C3 (amended): a completed align_entity run returns the declared node
changed at most in the names of partition descendants (the scheme-name
assignment of ReflectedPartition._create_ex); every other declared field
— old_name, ignore policy, attributes, tree shape, and every
non-partition name — is exactly its construction-time value.  Stated for
every operation table whose _create_ex overrides satisfy that frame
property (CreatePreserves); the concrete table-scope operations do, see
the witness. -/
theorem c3_amended_align_frames_declared :
    ∀ (σ : Type) (ops : Ops σ), CreatePreserves ops →
      ∀ (fuel : Nat) (d : DNode) (r : RNode) (rc : Bool) (s : St σ)
        (d1 : DNode) (r1 : RNode) (s1 : St σ) (ev : List Event),
        alignEntity ops fuel d r rc s = (.ok (d1, r1), s1, ev) →
        dSamePartB d d1 = true := by
  intro σ ops hops fuel
  induction fuel with
  | zero =>
    intro d r rc s d1 r1 s1 ev h
    simp [alignEntity, mThrow] at h
  | succ fuel ih =>
    intro d r rc s d1 r1 s1 ev h
    unfold alignEntity at h
    simp only [bindM_eq, pureM_eq] at h
    cases hot : (d.otype != r.otype) with
    | true =>
      simp [hot, mThrow] at h
    | false =>
      simp only [hot, Bool.false_eq_true, if_false] at h
      obtain ⟨rA, sA, e1, e2, _, hk, _⟩ := mBind_ok_inv h
      cases rc with
      | false =>
        simp only [Bool.false_eq_true, if_false, mPure, Prod.mk.injEq, Except.ok.injEq] at hk
        obtain ⟨⟨hd, _⟩, _, _⟩ := hk
        rw [← hd]
        exact dSamePartB_refl d
      | true =>
        simp only [if_true] at hk
        obtain ⟨dB, sB, e3, e4, hcp, hk2, _⟩ := mBind_ok_inv hk
        simp only [mPure, Prod.mk.injEq, Except.ok.injEq] at hk2
        obtain ⟨⟨hd, _⟩, _, _⟩ := hk2
        rw [← hd]
        have hf : AlignRecPreserves (fun dc rc => alignEntity ops fuel dc rc true) := by
          intro dc rcn s2 dc2 rc2 s3 ev2 hal
          exact ih dc rcn true s2 dc2 rc2 s3 ev2 hal
        unfold childPhase at hcp
        exact childTypeLoop_preserves hops hf (childTypesD d.otype) d sA dB sB e3 hcp

/-- Overwriting the name of a partition node stays within the frame
relation. -/
theorem dSamePartB_setName_partition (dc : DNode) (ps : String)
    (hot : dc.otype = .partitions) : dSamePartB dc (dc.setName ps) = true := by
  cases dc with
  | mk t n o i cs a =>
    simp only [DNode.otype] at hot
    subst hot
    unfold DNode.setName dSamePartB
    simp [dSamePartList_refl]

/-- The table-scope _create_ex overrides satisfy the frame property:
column, primary-key and index creation return the declared object
unchanged; partition creation returns it with only the name overwritten
by the generated scheme name. -/
theorem createPreserves_tableOps : CreatePreserves tableOps := by
  intro parent t dc s dc2 s2 ev hot hce
  cases t with
  | columns =>
    have h1 : (columnCreateEx dc s).1 = Except.ok dc := rfl
    rw [show tableOps.createEx parent EType.columns dc = columnCreateEx dc from rfl] at hce
    rw [hce] at h1
    simp only [Except.ok.injEq] at h1
    rw [h1]
    exact dSamePartB_refl dc
  | primary_keys =>
    have h1 : (pkCreateEx dc s).1 = Except.ok dc := rfl
    rw [show tableOps.createEx parent EType.primary_keys dc = pkCreateEx dc from rfl] at hce
    rw [hce] at h1
    simp only [Except.ok.injEq] at h1
    rw [h1]
    exact dSamePartB_refl dc
  | indexes =>
    have h1 : (ixCreateEx dc s).1 = Except.ok dc := rfl
    rw [show tableOps.createEx parent EType.indexes dc = ixCreateEx dc from rfl] at hce
    rw [hce] at h1
    simp only [Except.ok.injEq] at h1
    rw [h1]
    exact dSamePartB_refl dc
  | partitions =>
    rw [show tableOps.createEx parent EType.partitions dc = partitionCreateEx dc from rfl] at hce
    unfold partitionCreateEx at hce
    simp only [bindM_eq, pureM_eq] at hce
    obtain ⟨lv, sA, e1, e2, _, hk, _⟩ := mBind_ok_inv hce
    cases hfc : findColumn lv (valStrOf (dAttr dc "column")) with
    | none =>
      rw [hfc] at hk
      simp [mThrow] at hk
    | some pcol =>
      rw [hfc] at hk
      cases hdt : (!(["datetime", "datetime2"].contains pcol.data_type)) with
      | true =>
        simp only [hdt, if_true] at hk
        simp [mThrow] at hk
      | false =>
        simp only [hdt, Bool.false_eq_true, if_false] at hk
        obtain ⟨_, sB, e3, e4, _, hk2, _⟩ := mBind_ok_inv hk
        obtain ⟨_, sC, e5, e6, _, hk3, _⟩ := mBind_ok_inv hk2
        obtain ⟨_, sD, e7, e8, _, hk4, _⟩ := mBind_ok_inv hk3
        obtain ⟨_, sE, e9, e10, _, hk5, _⟩ := mBind_ok_inv hk4
        obtain ⟨lv2, sF, e11, e12, _, hk6, _⟩ := mBind_ok_inv hk5
        obtain ⟨_, sG, e13, e14, _, hk7, _⟩ := mBind_ok_inv hk6
        simp only [mPure, Prod.mk.injEq, Except.ok.injEq] at hk7
        obtain ⟨hd, _, _⟩ := hk7
        rw [← hd]
        exact dSamePartB_setName_partition dc _ hot
  | servers =>
    simp [show tableOps.createEx parent EType.servers dc = mThrow Err.notImplemented from rfl,
      mThrow] at hce
  | databases =>
    simp [show tableOps.createEx parent EType.databases dc = mThrow Err.notImplemented from rfl,
      mThrow] at hce
  | schemas =>
    simp [show tableOps.createEx parent EType.schemas dc = mThrow Err.notImplemented from rfl,
      mThrow] at hce
  | tables =>
    simp [show tableOps.createEx parent EType.tables dc = mThrow Err.notImplemented from rfl,
      mThrow] at hce
  | foreign_keys =>
    simp [show tableOps.createEx parent EType.foreign_keys dc = mThrow Err.notImplemented from rfl,
      mThrow] at hce
  | logins =>
    simp [show tableOps.createEx parent EType.logins dc = mThrow Err.notImplemented from rfl,
      mThrow] at hce
  | users =>
    simp [show tableOps.createEx parent EType.users dc = mThrow Err.notImplemented from rfl,
      mThrow] at hce

/-- C3 amended witness: the partition-creating run of the counterexample,
run with the concrete table operations (which satisfy CreatePreserves),
yields a declared tree related to the input by the frame relation. -/
theorem c3_amended_witness :
    alignEntity tableOps 2 dTableC3 tableNodeEx true stC3 =
      (.ok (dTableC3After, tableNodeEx), stC3After, evC3After)
    ∧ dSamePartB dTableC3 dTableC3After = true := by
  have hrun : alignEntity tableOps 2 dTableC3 tableNodeEx true stC3 =
      (.ok (dTableC3After, tableNodeEx), stC3After, evC3After) := by rfl
  exact ⟨hrun, c3_amended_align_frames_declared LiveTable tableOps createPreserves_tableOps
    2 dTableC3 tableNodeEx true stC3 dTableC3After tableNodeEx stC3After evC3After hrun⟩

end SSSM
